import Mathlib

/-!
# Verification of the conversational orchestration core

Shallow embedding of the Compraltiro bot core:
* `ScheduledMessages` — `src/services/scheduled-messages.js` (Scheduled Dispatch Engine)
* `MessageBuffer` — `MessageBufferService` in `src/services/audioTranscriptionService.js`
  (Debounce Aggregator)
* `HumanHandoff` — `src/services/humanHandoffService.js` (Handoff Pause Manager)
* `Survey` — `SurveyService` in `src/services/surveyService.js` (Survey Flow Engine)
* `App` — `processMessage` in `src/app.js` (Conversation Mode Router)

JavaScript string and `Date` primitives used by the code (`parseInt`,
`String.prototype.toLowerCase`/`trim`/`split`/`replace(/\D/g,'')`, the
`new Date(y, m, d, h, mi, s)` constructor with its field rollover) are embedded
first.  Times are modelled as integer milliseconds on the host's local
timeline; wall-clock reads (`Date.now()`, `new Date()`, `toDateString()`)
become explicit parameters of each operation.
-/

namespace JsPrim

/-- `String.prototype.toLowerCase` restricted to ASCII, which covers every
string the embedded code compares after lowercasing. -/
def jsToLower (s : String) : String := ⟨s.toList.map Char.toLower⟩

/-- `String.prototype.trim`: strip whitespace from both ends. -/
def jsTrim (s : String) : String :=
  ⟨((s.toList.dropWhile Char.isWhitespace).reverse.dropWhile Char.isWhitespace).reverse⟩

/-- Split a character list at every occurrence of `sep`. -/
def splitOnChar (sep : Char) : List Char → List (List Char)
  | [] => [[]]
  | c :: t =>
    let r := splitOnChar sep t
    if c = sep then [] :: r
    else
      match r with
      | [] => [[c]]
      | h :: t2 => (c :: h) :: t2

/-- `s.split(sep)` for a one-character separator, as used by
`parseDateTime` (`' '`, `'/'`, `':'`). -/
def jsSplit (s : String) (sep : Char) : List String :=
  (splitOnChar sep s.toList).map fun l => ⟨l⟩

/-- `phoneNumber.replace(/\D/g, '')` — keep only ASCII digits. -/
def cleanNumber (s : String) : String := ⟨s.toList.filter Char.isDigit⟩

/-- Does `pat` occur as a contiguous run inside `l`? -/
def listContains (pat : List Char) : List Char → Bool
  | [] => pat.isEmpty
  | c :: t => pat.isPrefixOf (c :: t) || listContains pat t

/-- `a.includes(b)` on strings: substring containment. -/
def strContains (s pat : String) : Bool := listContains pat.toList s.toList

/-- `parseInt(s)` (radix 10): skip leading whitespace, optional sign, then the
longest digit prefix; `none` models `NaN`. -/
def jsParseInt (s : String) : Option Int :=
  let l := (jsTrim s).toList
  let signed : Int × List Char :=
    match l with
    | '-' :: t => (-1, t)
    | '+' :: t => (1, t)
    | _ => (1, l)
  let ds := signed.2.takeWhile Char.isDigit
  if ds.isEmpty then none
  else some (signed.1 * (ds.foldl (fun n c => n * 10 + (c.toNat - 48)) 0 : Nat))

/-- Days since 1970-01-01 of the civil date `y-m-d` (proleptic Gregorian),
Howard Hinnant's `days_from_civil`; this is what ECMAScript `MakeDay`
computes once months are normalised. -/
def daysFromCivil (y m d : Int) : Int :=
  let y := if m ≤ 2 then y - 1 else y
  let era := (if 0 ≤ y then y else y - 399) / 400
  let yoe := y - era * 400
  let doy := (153 * (if 2 < m then m - 3 else m + 9) + 2) / 5 + d - 1
  let doe := yoe * 365 + yoe / 4 - yoe / 100 + doy
  era * 146097 + doe - 719468

/-- Milliseconds (local timeline) of `new Date(year, month, day, hour, minute,
second)`.  ECMAScript semantics: a two-digit year means `1900 + year`, the
month is zero-based and overflows into the year, and out-of-range day/hour/
minute/second values roll over arithmetically instead of failing. -/
def msOfDateArgs (year month day hour minute second : Int) : Int :=
  let yr := if 0 ≤ year ∧ year ≤ 99 then 1900 + year else year
  let ym := yr + month.fdiv 12
  let mn := month.emod 12
  let days := daysFromCivil ym (mn + 1) 1 + (day - 1)
  days * 86400000 + hour * 3600000 + minute * 60000 + second * 1000

end JsPrim

namespace ScheduledMessages

open JsPrim

/-- Result of `parseDateTime`: `null`, an `Invalid Date` (some field was `NaN`),
or a valid `Date` at the given local-timeline millisecond. -/
inductive DateResult where
  | null : DateResult
  | invalid : DateResult
  | at (ms : Int) : DateResult
deriving DecidableEq, Repr

/-- `parseDateTime(dateTimeStr)` from `scheduled-messages.js` (lines 29–52).
Splits `"DD/MM/YYYY HH:mm:ss"`; returns `null` on a missing time part or fewer
than three date fields; otherwise builds `new Date(year, month-1, day, hour,
minute, second)` where a `NaN` day/month/year/hour yields an `Invalid Date`
and `minute`/`second` default to 0 (`|| 0`). -/
def parseDateTime (dateTimeStr : String) : DateResult :=
  if dateTimeStr = "" then .null
  else
    let parts := jsSplit (jsTrim dateTimeStr) ' '
    if parts.length < 2 then .null
    else
      let dateParts := jsSplit (parts.getD 0 "") '/'
      let timeParts := jsSplit (parts.getD 1 "") ':'
      if dateParts.length < 3 then .null
      else
        match jsParseInt (dateParts.getD 0 ""), jsParseInt (dateParts.getD 1 ""),
              jsParseInt (dateParts.getD 2 ""), jsParseInt (timeParts.getD 0 "") with
        | some day, some month, some year, some hour =>
          let minute := ((timeParts.get? 1).bind jsParseInt).getD 0
          let second := ((timeParts.get? 2).bind jsParseInt).getD 0
          .at (msOfDateArgs year (month - 1) day hour minute second)
        | _, _, _, _ => .invalid

/-- One row of the `Envios` sheet as returned by
`googleService.getScheduledMessages()`. -/
structure MsgRow where
  rowIndex : Nat
  numeroWhatsapp : String
  mensajeTexto : String
  mediaUrl : String
  hora : String
  estado : String
deriving DecidableEq, Repr

/-- The anti-blocking configuration object from the constructor. -/
structure Config where
  minDelayMs : Nat
  maxDelayMs : Nat
  maxDailyMessages : Nat
  checkIntervalMs : Nat
  startHour : Int
  endHour : Int
deriving DecidableEq, Repr

/-- Constructor defaults of `ScheduledMessagesService`. -/
def defaultConfig : Config :=
  { minDelayMs := 5000, maxDelayMs := 15000, maxDailyMessages := 50
    checkIntervalMs := 60000, startHour := 6, endHour := 22 }

/-- Mutable service state: `isProcessing`, `dailySentCount`, `lastResetDate`
(a `toDateString()` value) and whether `provider` is set. -/
structure EngineState where
  isProcessing : Bool
  dailySentCount : Nat
  lastResetDate : String
  hasProvider : Bool
deriving DecidableEq, Repr

/-- `isWithinAllowedHours()` applied to the current local hour. -/
def isWithinAllowedHours (cfg : Config) (hour : Int) : Bool :=
  decide (cfg.startHour ≤ hour) && decide (hour < cfg.endHour)

/-- `checkDailyReset()`: reset the daily counter when the observed date string
differs from `lastResetDate`; also reports whether a reset happened. -/
def checkDailyReset (st : EngineState) (today : String) : EngineState × Bool :=
  if today ≠ st.lastResetDate then
    ({ st with dailySentCount := 0, lastResetDate := today }, true)
  else (st, false)

/-- The filter predicate of `processScheduledMessages` (lines 113–122): keep a
row iff its `estado` lowercases to `"pendiente"` and `parseDateTime(hora)`
yields a valid date `≤ now`.  A `null` parse is logged and excluded; an
`Invalid Date` is excluded silently because `NaN <= now` is false. -/
def isDue (nowMs : Int) (m : MsgRow) : Bool :=
  jsToLower m.estado = "pendiente" &&
    match parseDateTime m.hora with
    | .null => false
    | .invalid => false
    | .at t => decide (t ≤ nowMs)

/-- Rows that trigger the `⚠️ Hora inválida` log inside the filter: status
pending but `parseDateTime` returned `null`. -/
def isInvalidLogged (m : MsgRow) : Bool :=
  jsToLower m.estado = "pendiente" && parseDateTime m.hora = .null

/-- Everything `processScheduledMessages` reads from the outside world during
one cycle: the observed `toDateString()`, local hour and `Date.now()`, the
backlog rows, and which delivery attempts succeed (`sendOk i` is the outcome
of the `i`-th `provider.sendMessage` in this cycle's pending list). -/
structure CycleEnv where
  date : String
  hour : Int
  nowMs : Int
  rows : List MsgRow
  sendOk : Nat → Bool

/-- Observable outcome of one cycle: the final state, the rows for which
`provider.sendMessage` succeeded, the `updateMessageStatus` writes
`(rowIndex, status)` in order, whether the daily counter was reset, and the
rows logged as having an invalid hour. -/
structure CycleOut where
  state : EngineState
  sent : List MsgRow
  statusUpdates : List (Nat × String)
  didReset : Bool
  invalidLogged : List MsgRow
deriving DecidableEq, Repr

/-- The send loop (lines 130–169): before each message re-check the daily cap
and `break` when reached; on success write status `Enviado` and increment the
counter; on a delivery failure write status `Error` and continue.
(`updateMessageStatus` catches its own errors and never throws, so the counter
increments exactly on delivery success.)  Returns the final counter, the
successfully delivered rows and the status writes. -/
def sendLoop (maxDaily : Nat) (sendOk : Nat → Bool) :
    List MsgRow → Nat → Nat → Nat × List MsgRow × List (Nat × String)
  | [], _, c => (c, [], [])
  | r :: rs, i, c =>
    if maxDaily ≤ c then (c, [], [])
    else if sendOk i then
      let rest := sendLoop maxDaily sendOk rs (i + 1) (c + 1)
      (rest.1, r :: rest.2.1, (r.rowIndex, "Enviado") :: rest.2.2)
    else
      let rest := sendLoop maxDaily sendOk rs (i + 1) c
      (rest.1, rest.2.1, (r.rowIndex, "Error") :: rest.2.2)

/-- Body of the `try` block of `processScheduledMessages` (lines 94–170),
entered with `isProcessing = true`: allowed-hours check, daily reset, cap
check, fetch + filter, then the send loop. -/
def cycleBody (cfg : Config) (st : EngineState) (env : CycleEnv) : CycleOut :=
  if !isWithinAllowedHours cfg env.hour then ⟨st, [], [], false, []⟩
  else
    let reset := checkDailyReset st env.date
    let st := reset.1
    if cfg.maxDailyMessages ≤ st.dailySentCount then ⟨st, [], [], reset.2, []⟩
    else
      let pendingMessages := env.rows.filter (isDue env.nowMs)
      let invalid := env.rows.filter isInvalidLogged
      if pendingMessages.isEmpty then ⟨st, [], [], reset.2, invalid⟩
      else
        let loop := sendLoop cfg.maxDailyMessages env.sendOk pendingMessages 0 st.dailySentCount
        ⟨{ st with dailySentCount := loop.1 }, loop.2.1, loop.2.2, reset.2, invalid⟩

/-- `processScheduledMessages()` (lines 87–176): a no-op when a cycle is in
flight or no provider is set; otherwise the in-flight flag is raised, the body
runs (any error being caught), and the `finally` clause lowers the flag on
every exit path. -/
def processScheduledMessages (cfg : Config) (st : EngineState) (env : CycleEnv) : CycleOut :=
  if st.isProcessing || !st.hasProvider then ⟨st, [], [], false, []⟩
  else
    let out := cycleBody cfg { st with isProcessing := true } env
    { out with state := { out.state with isProcessing := false } }

/-- A sequence of poll cycles, threading the service state. -/
def runCycles (cfg : Config) : EngineState → List CycleEnv → EngineState × List CycleOut
  | st, [] => (st, [])
  | st, e :: rest =>
    let out := processScheduledMessages cfg st e
    let next := runCycles cfg out.state rest
    (next.1, out :: next.2)

/-- Total number of successful deliveries over a run. -/
def totalSent (outs : List CycleOut) : Nat := (outs.map (fun o => o.sent.length)).sum

/-- Number of cycles of a run that reset the daily counter. -/
def numResets (outs : List CycleOut) : Nat := (outs.filter (fun o => o.didReset)).length

/-- The successful deliveries accounted to day `d` by the engine state: the
counter when the window date is `d`, zero otherwise. -/
def dayCount (d : String) (st : EngineState) : Nat :=
  if st.lastResetDate = d then st.dailySentCount else 0

/-- The guard conjunction under which a cycle reaches the backlog fetch and
its filter: not in flight, provider set, inside allowed hours, and daily cap
not yet reached after the reset check. -/
def reachesFetch (cfg : Config) (st : EngineState) (env : CycleEnv) : Bool :=
  !st.isProcessing && st.hasProvider && isWithinAllowedHours cfg env.hour &&
    decide ((checkDailyReset { st with isProcessing := true } env.date).1.dailySentCount
      < cfg.maxDailyMessages)


end ScheduledMessages

namespace MessageBuffer

open JsPrim

/-- Configuration of `MessageBufferService` (`audioTranscriptionService.js`
lines 163–168). -/
structure BufCfg where
  waitTimeMs : Int
  maxWaitTimeMs : Int
  separator : String
deriving DecidableEq, Repr

/-- Constructor defaults: 2.5 s debounce window, 10 s absolute ceiling,
single-space separator. -/
def defaultBufCfg : BufCfg := ⟨2500, 10000, " "⟩

/-- The per-key buffer entry: accumulated (trimmed) fragments, the arrival
time of the first fragment, the absolute time at which the pending
`setTimeout` fires, and the index of the promise currently held in
`buffer.resolve`. -/
structure Buffer where
  messages : List String
  firstMessageTime : Int
  deadline : Int
  resolveIdx : Nat
deriving DecidableEq, Repr

/-- A settled promise: which `addMessage` call it belongs to (`idx`, in call
order), when it settled, its value (`none` models the superseded signal
`null`; `some (combined, count)` the flushed result), and the
`firstMessageTime` of the buffer instance that settled it. -/
structure Resolution where
  idx : Nat
  time : Int
  value : Option (String × Nat)
  bufferStart : Int
deriving DecidableEq, Repr

/-- State of one key's slot of `MessageBufferService`: the live buffer, the
promises settled so far, and the index of the next `addMessage` call. -/
structure BufState where
  buf : Option Buffer
  resolutions : List Resolution
  nextIdx : Nat
deriving DecidableEq, Repr

/-- No buffer, no calls yet. -/
def initBufState : BufState := ⟨none, [], 0⟩

/-- `_processBuffer(phoneNumber)` at time `t` (lines 237–263): join the
fragments with the separator, delete the buffer and resolve the held promise
with `{combined, count}`. -/
def processBuffer (cfg : BufCfg) (t : Int) (s : BufState) : BufState :=
  match s.buf with
  | none => s
  | some b =>
    { buf := none
      resolutions := s.resolutions ++
        [⟨b.resolveIdx, t, some (String.intercalate cfg.separator b.messages, b.messages.length),
          b.firstMessageTime⟩]
      nextIdx := s.nextIdx }

/-- `addMessage(phoneNumber, message, ctx)` at time `t = Date.now()` (lines
182–232): create the buffer on first fragment, append the trimmed message,
cancel the previous timer, resolve the previous promise with `null`, then
schedule a flush after `min(waitTimeMs, maxWaitTimeMs - elapsed)` — or flush
synchronously when that wait is `≤ 0`. -/
def addMessage (cfg : BufCfg) (t : Int) (msg : String) (s : BufState) : BufState :=
  let idx := s.nextIdx
  match s.buf with
  | none =>
    let msgs := [jsTrim msg]
    let waitTime := min cfg.waitTimeMs (cfg.maxWaitTimeMs - (t - t))
    if waitTime ≤ 0 then
      processBuffer cfg t ⟨some ⟨msgs, t, t, idx⟩, s.resolutions, idx + 1⟩
    else
      ⟨some ⟨msgs, t, t + waitTime, idx⟩, s.resolutions, idx + 1⟩
  | some b =>
    let msgs := b.messages ++ [jsTrim msg]
    let res := s.resolutions ++ [⟨b.resolveIdx, t, none, b.firstMessageTime⟩]
    let waitTime := min cfg.waitTimeMs (cfg.maxWaitTimeMs - (t - b.firstMessageTime))
    if waitTime ≤ 0 then
      processBuffer cfg t ⟨some ⟨msgs, b.firstMessageTime, b.deadline, idx⟩, res, idx + 1⟩
    else
      ⟨some ⟨msgs, b.firstMessageTime, t + waitTime, idx⟩, res, idx + 1⟩

/-- Event-loop step for an arrival at time `t`: a pending timer whose deadline
has come due fires before the arriving message is handled; then `addMessage`
runs. -/
def stepArrival (cfg : BufCfg) (s : BufState) (e : Int × String) : BufState :=
  match s.buf with
  | some b =>
    if b.deadline ≤ e.1 then addMessage cfg e.1 e.2 (processBuffer cfg b.deadline s)
    else addMessage cfg e.1 e.2 s
  | none => addMessage cfg e.1 e.2 s

/-- Let the final pending timer (if any) fire. -/
def finishRun (cfg : BufCfg) (s : BufState) : BufState :=
  match s.buf with
  | some b => processBuffer cfg b.deadline s
  | none => s

/-- Run a whole trace of arrivals for one key through the event loop and let
the last timer fire. -/
def runArrivals (cfg : BufCfg) (s : BufState) (arrivals : List (Int × String)) : BufState :=
  finishRun cfg (arrivals.foldl (stepArrival cfg) s)

/-- The settled promises produced by a buffer currently holding `msgs` (held
promise `k`, first fragment at `t0`, last arrival at `tp`) once the arrivals
in the list — each coming in before the pending deadline — have been
processed and the final timer has fired: each arrival settles the previous
promise with `null` at its arrival time, and the final promise settles with
the full join at the last scheduled deadline. -/
def expectedRes (cfg : BufCfg) : List String → Nat → Int → Int → List (Int × String) → List Resolution
  | msgs, k, t0, tp, [] =>
    [⟨k, min (tp + cfg.waitTimeMs) (t0 + cfg.maxWaitTimeMs),
      some (String.intercalate cfg.separator msgs, msgs.length), t0⟩]
  | msgs, k, t0, _, (t, m) :: rest =>
    ⟨k, t, none, t0⟩ :: expectedRes cfg (msgs ++ [jsTrim m]) (k + 1) t0 t rest

/-- Arrival-time pattern of the debounce scenario: starting from a buffer
whose first fragment arrived at `t0` and whose latest fragment arrived at
`tp`, every listed arrival comes strictly within the wait window of the
previous one and strictly before the absolute ceiling. -/
def Rapid (cfg : BufCfg) (t0 : Int) : Int → List (Int × String) → Bool
  | _, [] => true
  | tp, (t, _) :: rest =>
    (decide (t < tp + cfg.waitTimeMs) && decide (t < t0 + cfg.maxWaitTimeMs))
      && Rapid cfg t0 t rest

/-- Safety predicate for the absolute ceiling: any live buffer's scheduled
flush deadline is within `maxWaitTimeMs` of its first fragment, and every
flushed (non-superseded) promise settled within `maxWaitTimeMs` of the first
fragment of its buffer instance. -/
def GoodBufState (maxWaitTimeMs : Int) (s : BufState) : Prop :=
  (∀ b, s.buf = some b → b.deadline ≤ b.firstMessageTime + maxWaitTimeMs)
  ∧ ∀ r ∈ s.resolutions, r.value.isSome = true → r.time ≤ r.bufferStart + maxWaitTimeMs

end MessageBuffer

namespace AList

variable {α : Type}

/-- `Map.prototype.get`: value stored under `k`, if any. -/
def alLookup (k : String) : List (String × α) → Option α
  | [] => none
  | (k2, v) :: t => if k2 = k then some v else alLookup k t

/-- `Map.prototype.set`: overwrite the entry for `k` in place, or append it. -/
def alSet (k : String) (v : α) : List (String × α) → List (String × α)
  | [] => [(k, v)]
  | (k2, v2) :: t => if k2 = k then (k, v) :: t else (k2, v2) :: alSet k v t

/-- `Map.prototype.delete`: remove the entry for `k`. -/
def alErase (k : String) : List (String × α) → List (String × α)
  | [] => []
  | (k2, v2) :: t => if k2 = k then t else (k2, v2) :: alErase k t

end AList

namespace HumanHandoff

open JsPrim AList

/-- One entry of the in-memory `pausedChats` map. -/
structure PauseInfo where
  pausedAt : Int
  expiresAt : Int
  reason : String
deriving DecidableEq, Repr

/-- The service configuration (`humanHandoffService.js` lines 13–18). -/
structure HandoffConfig where
  adminWhatsapp : String
  pauseMinutes : Nat
  customerMessage : String
  adminMessage : String
deriving DecidableEq, Repr

/-- Constructor defaults: no admin configured, 30-minute pause. -/
def defaultHandoffConfig : HandoffConfig :=
  { adminWhatsapp := ""
    pauseMinutes := 30
    customerMessage := "⏳ En breve un asesor se comunicará contigo para darte atención personalizada. Por favor espera."
    adminMessage := "🚨 *SOLICITUD DE ATENCIÓN*\n\n📱 Cliente: {phone}\n💬 Mensaje: {message}\n\n_Responde directamente a este número._" }

/-- State of `HumanHandoffService`: the paused-chat map keyed by digits-only
phone number, plus the configuration. -/
structure HandoffState where
  pausedChats : List (String × PauseInfo)
  config : HandoffConfig
deriving DecidableEq, Repr

/-- The trigger phrases of `detectHandoffIntent` (lines 21–36). -/
def handoffKeywords : List String :=
  ["hablar con alguien", "persona real", "humano", "agente", "asesor", "vendedor",
   "atención personalizada", "hablar con una persona", "comunicarme con alguien",
   "quiero llamar", "pueden llamarme", "necesito ayuda humana", "operador", "representante"]

/-- `detectHandoffIntent(message)`: the lowercased message contains one of the
trigger phrases. -/
def detectHandoffIntent (message : String) : Bool :=
  handoffKeywords.any fun keyword => strContains (jsToLower message) keyword

/-- `isPaused(phoneNumber)` at `now = Date.now()` (lines 88–102): `false` with
no record; if the record has expired (`now > expiresAt`) it is evicted and the
answer is `false`; otherwise `true`.  Returns the possibly-updated state. -/
def isPaused (st : HandoffState) (now : Int) (phoneNumber : String) : Bool × HandoffState :=
  let cleanNum := cleanNumber phoneNumber
  match alLookup cleanNum st.pausedChats with
  | none => (false, st)
  | some pauseInfo =>
    if pauseInfo.expiresAt < now then
      (false, { st with pausedChats := alErase cleanNum st.pausedChats })
    else (true, st)

/-- `pauseChat(phoneNumber, reason)` at `now` (lines 109–121): set/overwrite
the record with `expiresAt = now + pauseMinutes` minutes. -/
def pauseChat (st : HandoffState) (now : Int) (phoneNumber reason : String) : HandoffState :=
  let cleanNum := cleanNumber phoneNumber
  let expiresAt := now + (st.config.pauseMinutes : Int) * 60 * 1000
  { st with pausedChats := alSet cleanNum ⟨now, expiresAt, reason⟩ st.pausedChats }

/-- `resumeChat(phoneNumber)` (lines 128–136): delete the record, reporting
whether one existed. -/
def resumeChat (st : HandoffState) (phoneNumber : String) : Bool × HandoffState :=
  let cleanNum := cleanNumber phoneNumber
  if (alLookup cleanNum st.pausedChats).isSome then
    (true, { st with pausedChats := alErase cleanNum st.pausedChats })
  else (false, st)

/-- `initiateHandoff(phoneNumber, message)` (lines 143–174): pause under the
digits-only key, message the customer, and notify the admin when one is
configured (template substituting the clean number for `{phone}` and the turn
text for `{message}`).  Returns the new state and the `sendMessage` calls
`(recipient, body)`; either send failing does not undo the pause. -/
def initiateHandoff (st : HandoffState) (now : Int) (phoneNumber message : String) :
    HandoffState × List (String × String) :=
  let cleanNum := cleanNumber phoneNumber
  let st := pauseChat st now cleanNum message
  let customerNumber :=
    if strContains cleanNum "@" then cleanNum else cleanNum ++ "@s.whatsapp.net"
  let customerSend := (customerNumber, st.config.customerMessage)
  if st.config.adminWhatsapp ≠ "" then
    let adminMessage :=
      (st.config.adminMessage.replace "{phone}" cleanNum).replace "{message}" message
    (st, [customerSend, (st.config.adminWhatsapp ++ "@s.whatsapp.net", adminMessage)])
  else (st, [customerSend])

/-- `getPausedChats()` (lines 179–196): a pure read listing the not-yet-expired
records; it performs no eviction and returns no new state. -/
def getPausedChats (st : HandoffState) (now : Int) : List (String × PauseInfo) :=
  st.pausedChats.filter fun e => decide (now ≤ e.2.expiresAt)

end HumanHandoff

namespace Survey

open JsPrim AList

/-- One in-progress survey (`surveyService.js` lines 84–89): the step index,
the answers so far, the question list snapshotted at start
(`[...this.questions]`) and the start time. -/
structure SurveySession where
  currentQuestion : Nat
  answers : List String
  questions : List String
  startedAt : Int
deriving DecidableEq, Repr

/-- Survey configuration (lines 12–17).  The configurable texts are modelled
at their constructor defaults; none of the verified properties depends on
their contents. -/
structure SurveyConfig where
  keyword : String
  welcomeMessage : String
  thankYouMessage : String
  isActive : Bool
deriving DecidableEq, Repr

/-- Constructor defaults of `SurveyService.config`. -/
def defaultSurveyConfig : SurveyConfig :=
  { keyword := "encuesta"
    welcomeMessage := "📋 ¡Hola! Vamos a hacerte unas preguntas rápidas."
    thankYouMessage := "✅ ¡Gracias por tus respuestas! Han sido guardadas."
    isActive := true }

/-- A record appended to the survey results store by `addSurveyResponse(row,
questions)`: the row `[Fecha, WhatsApp, Respuesta1, ...]` plus the snapshot
passed along for the headers. -/
structure SavedResponse where
  row : List String
  questions : List String
deriving DecidableEq, Repr

/-- State of `SurveyService`: active sessions keyed by the raw sender id, the
live question list, and what has been persisted to the results store. -/
structure SurveyState where
  activeSurveys : List (String × SurveySession)
  questions : List String
  saved : List SavedResponse
deriving DecidableEq, Repr

/-- Fresh service: no sessions, no questions loaded, nothing persisted. -/
def initSurveyState : SurveyState := ⟨[], [], []⟩

/-- The question-list part of `loadConfig()`: replace the live question list
with what `getSurveyQuestions()` returned. -/
def loadQuestions (st : SurveyState) (fetched : List String) : SurveyState :=
  { st with questions := fetched }

/-- `hasActiveSurvey(phoneNumber)` (lines 66–68). -/
def hasActiveSurvey (st : SurveyState) (phoneNumber : String) : Bool :=
  (alLookup phoneNumber st.activeSurveys).isSome

/-- `isKeywordTrigger(message)` (lines 56–59). -/
def isKeywordTrigger (message : String) : Bool :=
  defaultSurveyConfig.isActive && jsTrim (jsToLower message) = defaultSurveyConfig.keyword

/-- `startSurvey(phoneNumber)` at time `now` (lines 75–95): reload the
questions (the reload result is the `fetched` argument); with no questions
configured, answer with a fixed notice and create no session; otherwise
snapshot the questions into a fresh session at step 0 and emit the welcome
text plus question 1. -/
def startSurvey (st : SurveyState) (phoneNumber : String) (fetched : List String) (now : Int) :
    SurveyState × String :=
  let st := loadQuestions st fetched
  if st.questions.length = 0 then
    (st, "No hay preguntas configuradas en este momento.")
  else
    let st2 := { st with
      activeSurveys := alSet phoneNumber ⟨0, [], st.questions, now⟩ st.activeSurveys }
    (st2, defaultSurveyConfig.welcomeMessage ++ "\n\n*Pregunta 1/" ++
      toString st.questions.length ++ ":*\n" ++ st.questions.getD 0 "")

/-- `saveSurveyResponses(phoneNumber, survey)` (lines 141–155): append the row
`[now, digits-only number, ...answers]` together with the session's question
snapshot to the results store. -/
def saveSurveyResponses (st : SurveyState) (phoneNumber : String) (survey : SurveySession)
    (nowStr : String) : SurveyState :=
  { st with saved := st.saved ++ [⟨nowStr :: cleanNumber phoneNumber :: survey.answers,
      survey.questions⟩] }

/-- Reply of `processAnswer`. -/
structure AnswerResult where
  message : String
  isComplete : Bool
deriving DecidableEq, Repr

/-- `processAnswer(phoneNumber, answer)` (lines 103–136): with no active
session, an empty complete reply; otherwise append the answer, advance the
step, and either emit the next snapshotted question or — when the snapshot is
exhausted — persist the responses, destroy the session and emit the
thank-you text. -/
def processAnswer (st : SurveyState) (phoneNumber answer nowStr : String) :
    SurveyState × AnswerResult :=
  match alLookup phoneNumber st.activeSurveys with
  | none => (st, ⟨"", true⟩)
  | some survey =>
    let survey := { survey with
      answers := survey.answers ++ [answer]
      currentQuestion := survey.currentQuestion + 1 }
    if survey.currentQuestion < survey.questions.length then
      ({ st with activeSurveys := alSet phoneNumber survey st.activeSurveys },
       ⟨"*Pregunta " ++ toString (survey.currentQuestion + 1) ++ "/" ++
          toString survey.questions.length ++ ":*\n" ++
          survey.questions.getD survey.currentQuestion "", false⟩)
    else
      let st := saveSurveyResponses st phoneNumber survey nowStr
      ({ st with activeSurveys := alErase phoneNumber st.activeSurveys },
       ⟨defaultSurveyConfig.thankYouMessage, true⟩)

/-- External interactions driving the survey engine over time: configuration
(re)loads, keyword-triggered starts, and user answers. -/
inductive SurveyEvent where
  | load (fetched : List String)
  | start (phoneNumber : String) (fetched : List String) (now : Int)
  | answer (phoneNumber answer nowStr : String)
deriving Repr

/-- One event step (replies discarded; they are studied per-operation). -/
def surveyStep (st : SurveyState) : SurveyEvent → SurveyState
  | .load fetched => loadQuestions st fetched
  | .start p fetched now => (startSurvey st p fetched now).1
  | .answer p a nowStr => (processAnswer st p a nowStr).1

/-- A whole history of survey interactions from process start. -/
def runSurvey (events : List SurveyEvent) : SurveyState :=
  events.foldl surveyStep initSurveyState

/-- Structural invariant of the survey engine: every active session has as
many answers as completed steps and is strictly inside its snapshot, and
every persisted record is a timestamp, a digits-only key, and one answer per
snapshotted question. -/
def SurveyInv (st : SurveyState) : Prop :=
  (∀ e ∈ st.activeSurveys,
    e.2.answers.length = e.2.currentQuestion ∧ e.2.currentQuestion < e.2.questions.length)
  ∧ ∀ rec ∈ st.saved, ∃ ts key answers, rec.row = ts :: key :: answers
      ∧ answers.length = rec.questions.length
      ∧ key.toList.all Char.isDigit = true

end Survey

namespace App

open JsPrim AList HumanHandoff Survey

/-- One row of the Flujos sheet as used by `processMessage` step 2. -/
structure FlowRow where
  addKeyword : String
  addAnswer : String
  media : String
deriving DecidableEq, Repr

/-- The per-key state `processMessage` can read or write: the Handoff Pause
Manager and the Survey Flow Engine.  (The coalesced turn's PendingTurn was
already destroyed by the Debounce Aggregator before `processMessage` runs;
chat-history writes go to an external store.) -/
structure AppState where
  handoff : HandoffState
  survey : SurveyState
deriving DecidableEq, Repr

/-- Results of the external calls `processMessage` makes, plus the clock:
the blacklist lookup (`.error` models a thrown lookup, which degrades to
not-blocked), the flows fetch, the responder-chain replies (the AI service
catches its own errors and always yields a string), the survey question
fetch used on a keyword-triggered start, and the current time. -/
structure MsgEnv where
  blacklist : Except Unit Bool
  flows : Except Unit (List FlowRow)
  aiReply : String
  aiReplyWC : String
  surveyFetched : List String
  nowMs : Int
  nowStr : String

/-- Observable outcome of one coalesced turn: the new per-key state, the
replies sent through `flowDynamic` as `(body, media?)`, and the direct
provider sends made by a handoff. -/
structure MsgOut where
  state : AppState
  replies : List (String × Option String)
  provSends : List (String × String)
deriving DecidableEq, Repr

/-- The flow-matching predicate of step 2: a non-empty lowercased, trimmed
keyword contained in the lowercased turn text. -/
def flowTriggered (userInput : String) (f : FlowRow) : Bool :=
  let keyword := jsTrim (jsToLower f.addKeyword)
  keyword ≠ "" && strContains (jsToLower userInput) keyword

/-- Step 3 fallback: reply with the WooCommerce-enriched AI response. -/
def aiFallback (st : AppState) (env : MsgEnv) : MsgOut :=
  ⟨st, [(env.aiReplyWC, none)], []⟩

/-- `processMessage(phoneNumber, userInput, flowDynamic)` (`app.js` lines
23–126), evaluated in strict order: blacklist check (failing open), pause
check, handoff-intent detection, active survey, survey trigger keyword,
sheet flows (failing open), AI fallback. -/
def processMessage (st : AppState) (env : MsgEnv) (phoneNumber userInput : String) : MsgOut :=
  let blocked := match env.blacklist with | .ok b => b | .error _ => false
  if blocked then ⟨st, [], []⟩
  else
    let pauseCheck := isPaused st.handoff env.nowMs phoneNumber
    let st := { st with handoff := pauseCheck.2 }
    if pauseCheck.1 then ⟨st, [], []⟩
    else if detectHandoffIntent userInput then
      let handoffResult := initiateHandoff st.handoff env.nowMs phoneNumber userInput
      ⟨{ st with handoff := handoffResult.1 }, [], handoffResult.2⟩
    else if hasActiveSurvey st.survey phoneNumber then
      let answerStep := processAnswer st.survey phoneNumber userInput env.nowStr
      ⟨{ st with survey := answerStep.1 },
       if answerStep.2.message = "" then [] else [(answerStep.2.message, none)], []⟩
    else if isKeywordTrigger userInput then
      let startStep := startSurvey st.survey phoneNumber env.surveyFetched env.nowMs
      ⟨{ st with survey := startStep.1 }, [(startStep.2, none)], []⟩
    else
      match env.flows with
      | .ok flows =>
        match flows.find? (flowTriggered userInput) with
        | some triggeredFlow =>
          let answer := jsTrim triggeredFlow.addAnswer
          if answer = "" then ⟨st, [(env.aiReply, none)], []⟩
          else if triggeredFlow.media ≠ "" && jsTrim triggeredFlow.media ≠ "" then
            ⟨st, [(answer, some (jsTrim triggeredFlow.media))], []⟩
          else ⟨st, [(answer, none)], []⟩
        | none => aiFallback st env
      | .error _ => aiFallback st env

end App

/-! ## Association-list lemmas -/

namespace AList

variable {α : Type}

theorem alLookup_alSet_self (k : String) (v : α) (l : List (String × α)) :
    alLookup k (alSet k v l) = some v := by
  induction l with
  | nil => simp [alSet, alLookup]
  | cons e t ih =>
    obtain ⟨k2, v2⟩ := e
    by_cases h : k2 = k
    · simp [alSet, alLookup, h]
    · simp [alSet, alLookup, h, ih]

theorem alLookup_alSet_ne (k k2 : String) (v : α) (l : List (String × α)) (h : k2 ≠ k) :
    alLookup k2 (alSet k v l) = alLookup k2 l := by
  have hk : ¬(k = k2) := fun hh => h hh.symm
  induction l with
  | nil => simp [alSet, alLookup, hk]
  | cons e t ih =>
    obtain ⟨k3, v3⟩ := e
    by_cases h3 : k3 = k
    · subst h3
      simp [alSet, alLookup, hk]
    · by_cases h4 : k3 = k2 <;> simp [alSet, alLookup, h3, h4, h, ih]

theorem alLookup_alErase_ne (k k2 : String) (l : List (String × α)) (h : k2 ≠ k) :
    alLookup k2 (alErase k l) = alLookup k2 l := by
  have hk : ¬(k = k2) := fun hh => h hh.symm
  induction l with
  | nil => simp [alErase]
  | cons e t ih =>
    obtain ⟨k3, v3⟩ := e
    by_cases h3 : k3 = k
    · subst h3
      simp [alErase, alLookup, hk]
    · by_cases h4 : k3 = k2 <;> simp [alErase, alLookup, h3, h4, h, ih]

theorem alLookup_eq_none_of_not_mem_keys (k : String) (l : List (String × α))
    (h : k ∉ l.map Prod.fst) : alLookup k l = none := by
  induction l with
  | nil => rfl
  | cons e t ih =>
    obtain ⟨k2, v2⟩ := e
    simp only [List.map_cons, List.mem_cons] at h
    push_neg at h
    simp only [alLookup, if_neg (fun hh : k2 = k => h.1 hh.symm)]
    exact ih h.2

theorem alLookup_alErase_self (k : String) (l : List (String × α))
    (hnd : (l.map Prod.fst).Nodup) : alLookup k (alErase k l) = none := by
  induction l with
  | nil => rfl
  | cons e t ih =>
    obtain ⟨k2, v2⟩ := e
    simp only [List.map_cons, List.nodup_cons] at hnd
    by_cases h : k2 = k
    · subst h
      simp only [alErase, if_pos rfl]
      exact alLookup_eq_none_of_not_mem_keys _ _ hnd.1
    · simp only [alErase, if_neg h, alLookup, if_neg h]
      exact ih hnd.2

theorem mem_alSet (k : String) (v : α) (l : List (String × α)) (x : String × α)
    (hx : x ∈ alSet k v l) : x = (k, v) ∨ x ∈ l := by
  induction l with
  | nil => simp [alSet] at hx; exact Or.inl hx
  | cons e t ih =>
    obtain ⟨k2, v2⟩ := e
    by_cases h : k2 = k
    · simp only [alSet, if_pos h] at hx
      rcases List.mem_cons.mp hx with h1 | h1
      · exact Or.inl h1
      · exact Or.inr (List.mem_cons_of_mem _ h1)
    · simp only [alSet, if_neg h] at hx
      rcases List.mem_cons.mp hx with h1 | h1
      · exact Or.inr (by simp [h1])
      · rcases ih h1 with h2 | h2
        · exact Or.inl h2
        · exact Or.inr (List.mem_cons_of_mem _ h2)

theorem mem_alErase (k : String) (l : List (String × α)) (x : String × α)
    (hx : x ∈ alErase k l) : x ∈ l := by
  induction l with
  | nil => simp [alErase] at hx
  | cons e t ih =>
    obtain ⟨k2, v2⟩ := e
    by_cases h : k2 = k
    · simp only [alErase, if_pos h] at hx
      exact List.mem_cons_of_mem _ hx
    · simp only [alErase, if_neg h] at hx
      rcases List.mem_cons.mp hx with h1 | h1
      · simp [h1]
      · exact List.mem_cons_of_mem _ (ih h1)

theorem alLookup_mem (k : String) (l : List (String × α)) (v : α)
    (h : alLookup k l = some v) : (k, v) ∈ l := by
  induction l with
  | nil => simp [alLookup] at h
  | cons e t ih =>
    obtain ⟨k2, v2⟩ := e
    by_cases h2 : k2 = k
    · subst h2
      simp [alLookup] at h
      subst h
      exact List.mem_cons_self _ _
    · simp only [alLookup, if_neg h2] at h
      exact List.mem_cons_of_mem _ (ih h)

end AList

/-! ## Scheduled Dispatch Engine: lemmas -/

namespace ScheduledMessages

theorem sendLoop_cons_cap {maxDaily : Nat} {ok : Nat → Bool} {r : MsgRow} {rs : List MsgRow}
    {i c : Nat} (h : maxDaily ≤ c) : sendLoop maxDaily ok (r :: rs) i c = (c, [], []) := by
  simp [sendLoop, h]

theorem sendLoop_cons_sent {maxDaily : Nat} {ok : Nat → Bool} {r : MsgRow} {rs : List MsgRow}
    {i c : Nat} (h : ¬maxDaily ≤ c) (hok : ok i = true) :
    sendLoop maxDaily ok (r :: rs) i c =
      ((sendLoop maxDaily ok rs (i + 1) (c + 1)).1,
       r :: (sendLoop maxDaily ok rs (i + 1) (c + 1)).2.1,
       (r.rowIndex, "Enviado") :: (sendLoop maxDaily ok rs (i + 1) (c + 1)).2.2) := by
  simp [sendLoop, h, hok]

theorem sendLoop_cons_err {maxDaily : Nat} {ok : Nat → Bool} {r : MsgRow} {rs : List MsgRow}
    {i c : Nat} (h : ¬maxDaily ≤ c) (hok : ok i = false) :
    sendLoop maxDaily ok (r :: rs) i c =
      ((sendLoop maxDaily ok rs (i + 1) c).1,
       (sendLoop maxDaily ok rs (i + 1) c).2.1,
       (r.rowIndex, "Error") :: (sendLoop maxDaily ok rs (i + 1) c).2.2) := by
  simp [sendLoop, h, hok]

theorem sendLoop_spec (maxDaily : Nat) (ok : Nat → Bool) :
    ∀ (rows : List MsgRow) (i c : Nat),
      (sendLoop maxDaily ok rows i c).1 = c + (sendLoop maxDaily ok rows i c).2.1.length
      ∧ (c ≤ maxDaily → (sendLoop maxDaily ok rows i c).1 ≤ maxDaily)
      ∧ (∀ r ∈ (sendLoop maxDaily ok rows i c).2.1, r ∈ rows)
      ∧ (∀ u ∈ (sendLoop maxDaily ok rows i c).2.2, ∃ r ∈ rows, u.1 = r.rowIndex) := by
  intro rows
  induction rows with
  | nil => intro i c; simp [sendLoop]
  | cons r rs ih =>
    intro i c
    by_cases hc : maxDaily ≤ c
    · rw [sendLoop_cons_cap hc]
      simp
    · cases hok : ok i with
      | true =>
        have h := ih (i + 1) (c + 1)
        rw [sendLoop_cons_sent hc hok]
        refine ⟨?_, fun _ => ?_, ?_, ?_⟩
        · simp only [List.length_cons]
          omega
        · exact h.2.1 (Nat.succ_le_of_lt (Nat.lt_of_not_le hc))
        · intro x hx
          rcases List.mem_cons.mp hx with h1 | h1
          · simp [h1]
          · exact List.mem_cons_of_mem _ (h.2.2.1 x h1)
        · intro u hu
          rcases List.mem_cons.mp hu with h1 | h1
          · exact ⟨r, List.mem_cons_self _ _, by simp [h1]⟩
          · obtain ⟨r2, hr2, hr2i⟩ := h.2.2.2 u h1
            exact ⟨r2, List.mem_cons_of_mem _ hr2, hr2i⟩
      | false =>
        have h := ih (i + 1) c
        rw [sendLoop_cons_err hc hok]
        refine ⟨h.1, h.2.1, ?_, ?_⟩
        · intro x hx
          exact List.mem_cons_of_mem _ (h.2.2.1 x hx)
        · intro u hu
          rcases List.mem_cons.mp hu with h1 | h1
          · exact ⟨r, List.mem_cons_self _ _, by simp [h1]⟩
          · obtain ⟨r2, hr2, hr2i⟩ := h.2.2.2 u h1
            exact ⟨r2, List.mem_cons_of_mem _ hr2, hr2i⟩

theorem processScheduledMessages_shape (cfg : Config) (st : EngineState) (env : CycleEnv) :
    ((processScheduledMessages cfg st env).sent = []
      ∧ (processScheduledMessages cfg st env).statusUpdates = []
      ∧ (processScheduledMessages cfg st env).invalidLogged = [])
    ∨ ((processScheduledMessages cfg st env).sent = []
      ∧ (processScheduledMessages cfg st env).statusUpdates = []
      ∧ (processScheduledMessages cfg st env).invalidLogged
          = env.rows.filter isInvalidLogged)
    ∨ ∃ c0, (processScheduledMessages cfg st env).sent
          = (sendLoop cfg.maxDailyMessages env.sendOk (env.rows.filter (isDue env.nowMs)) 0 c0).2.1
        ∧ (processScheduledMessages cfg st env).statusUpdates
          = (sendLoop cfg.maxDailyMessages env.sendOk (env.rows.filter (isDue env.nowMs)) 0 c0).2.2
        ∧ (processScheduledMessages cfg st env).invalidLogged
          = env.rows.filter isInvalidLogged := by
  by_cases h1 : (st.isProcessing || !st.hasProvider) = true
  · left
    simp only [processScheduledMessages, cycleBody]
    rw [if_pos h1]
    exact ⟨rfl, rfl, rfl⟩
  · by_cases h2 : (!isWithinAllowedHours cfg env.hour) = true
    · left
      simp only [processScheduledMessages, cycleBody]
      rw [if_neg h1, if_pos h2]
      exact ⟨rfl, rfl, rfl⟩
    · by_cases h3 : cfg.maxDailyMessages ≤
          (checkDailyReset { st with isProcessing := true } env.date).1.dailySentCount
      · left
        simp only [processScheduledMessages, cycleBody]
        rw [if_neg h1, if_neg h2, if_pos h3]
        exact ⟨rfl, rfl, rfl⟩
      · by_cases h4 : (env.rows.filter (isDue env.nowMs)).isEmpty = true
        · right; left
          simp only [processScheduledMessages, cycleBody]
          rw [if_neg h1, if_neg h2, if_neg h3, if_pos h4]
          exact ⟨rfl, rfl, rfl⟩
        · right; right
          refine ⟨(checkDailyReset { st with isProcessing := true } env.date).1.dailySentCount,
            ?_, ?_, ?_⟩ <;>
          · simp only [processScheduledMessages, cycleBody]
            rw [if_neg h1, if_neg h2, if_neg h3, if_neg h4]

theorem reachesFetch_invalidLogged (cfg : Config) (st : EngineState) (env : CycleEnv)
    (h : reachesFetch cfg st env = true) :
    (processScheduledMessages cfg st env).invalidLogged = env.rows.filter isInvalidLogged := by
  simp only [reachesFetch, Bool.and_eq_true, Bool.not_eq_true', decide_eq_true_eq] at h
  obtain ⟨⟨⟨hp, hprov⟩, hh⟩, hcap⟩ := h
  have h1 : ¬(st.isProcessing || !st.hasProvider) = true := by simp [hp, hprov]
  have h2 : ¬(!isWithinAllowedHours cfg env.hour) = true := by simp [hh]
  have h3 : ¬cfg.maxDailyMessages ≤
      (checkDailyReset { st with isProcessing := true } env.date).1.dailySentCount := by omega
  by_cases h4 : (env.rows.filter (isDue env.nowMs)).isEmpty = true
  · simp only [processScheduledMessages, cycleBody]
    rw [if_neg h1, if_neg h2, if_neg h3, if_pos h4]
  · simp only [processScheduledMessages, cycleBody]
    rw [if_neg h1, if_neg h2, if_neg h3, if_neg h4]

theorem checkDailyReset_pos (st : EngineState) (today : String)
    (h : today ≠ st.lastResetDate) :
    checkDailyReset st today
      = ({ st with dailySentCount := 0, lastResetDate := today }, true) := by
  simp [checkDailyReset, h]

theorem checkDailyReset_neg (st : EngineState) (today : String)
    (h : ¬today ≠ st.lastResetDate) :
    checkDailyReset st today = (st, false) := by
  simp [checkDailyReset, not_not.mp h]

theorem cycle_facts (cfg : Config) (st : EngineState) (e : CycleEnv)
    (hc : st.dailySentCount ≤ cfg.maxDailyMessages) :
    (processScheduledMessages cfg st e).state.dailySentCount ≤ cfg.maxDailyMessages
    ∧ dayCount e.date (processScheduledMessages cfg st e).state
        = dayCount e.date st + (processScheduledMessages cfg st e).sent.length
    ∧ ((processScheduledMessages cfg st e).didReset = true →
        st.lastResetDate ≠ e.date
        ∧ (processScheduledMessages cfg st e).state.lastResetDate = e.date)
    ∧ ((processScheduledMessages cfg st e).didReset = false →
        (processScheduledMessages cfg st e).state.lastResetDate = st.lastResetDate) := by
  by_cases h1 : (st.isProcessing || !st.hasProvider) = true
  · simp only [processScheduledMessages]
    rw [if_pos h1]
    exact ⟨hc, by simp, by simp, fun _ => rfl⟩
  · by_cases h2 : (!isWithinAllowedHours cfg e.hour) = true
    · simp only [processScheduledMessages, cycleBody]
      rw [if_neg h1, if_pos h2]
      exact ⟨hc, by simp [dayCount], by simp, fun _ => rfl⟩
    · by_cases hr : e.date ≠ st.lastResetDate
      · have hrs : st.lastResetDate ≠ e.date := fun hh => hr hh.symm
        have hcd := checkDailyReset_pos { st with isProcessing := true } e.date hr
        simp only [processScheduledMessages, cycleBody]
        rw [if_neg h1, if_neg h2, hcd]
        dsimp only
        by_cases h3 : cfg.maxDailyMessages ≤ 0
        · rw [if_pos h3]
          exact ⟨Nat.zero_le _, by simp [dayCount, hrs], fun _ => ⟨hrs, rfl⟩, by simp⟩
        · rw [if_neg h3]
          by_cases h4 : (e.rows.filter (isDue e.nowMs)).isEmpty = true
          · rw [if_pos h4]
            exact ⟨Nat.zero_le _, by simp [dayCount, hrs], fun _ => ⟨hrs, rfl⟩, by simp⟩
          · rw [if_neg h4]
            have hsl := sendLoop_spec cfg.maxDailyMessages e.sendOk
              (e.rows.filter (isDue e.nowMs)) 0 0
            refine ⟨hsl.2.1 (Nat.zero_le _), ?_, fun _ => ⟨hrs, rfl⟩, by simp⟩
            have h0 := hsl.1
            simp [dayCount, hrs]
            omega
      · have hst : st.lastResetDate = e.date := (not_not.mp hr).symm
        have hcd := checkDailyReset_neg { st with isProcessing := true } e.date hr
        simp only [processScheduledMessages, cycleBody]
        rw [if_neg h1, if_neg h2, hcd]
        dsimp only
        by_cases h3 : cfg.maxDailyMessages ≤ st.dailySentCount
        · rw [if_pos h3]
          exact ⟨hc, by simp [dayCount], by simp, fun _ => rfl⟩
        · rw [if_neg h3]
          by_cases h4 : (e.rows.filter (isDue e.nowMs)).isEmpty = true
          · rw [if_pos h4]
            exact ⟨hc, by simp [dayCount], by simp, fun _ => rfl⟩
          · rw [if_neg h4]
            have hsl := sendLoop_spec cfg.maxDailyMessages e.sendOk
              (e.rows.filter (isDue e.nowMs)) 0 st.dailySentCount
            refine ⟨hsl.2.1 hc, ?_, by simp, fun _ => rfl⟩
            have h0 := hsl.1
            simp [dayCount, hst]
            omega

theorem totalSent_cons (o : CycleOut) (outs : List CycleOut) :
    totalSent (o :: outs) = o.sent.length + totalSent outs := by
  simp [totalSent]

theorem numResets_cons (o : CycleOut) (outs : List CycleOut) :
    numResets (o :: outs) = (if o.didReset = true then 1 else 0) + numResets outs := by
  simp only [numResets, List.filter_cons]
  split
  · simp [Nat.add_comm]
  · simp

theorem runCycles_facts (cfg : Config) (d : String) :
    ∀ (envs : List CycleEnv) (st : EngineState), (∀ e ∈ envs, e.date = d) →
      st.dailySentCount ≤ cfg.maxDailyMessages →
      (runCycles cfg st envs).1.dailySentCount ≤ cfg.maxDailyMessages
      ∧ dayCount d (runCycles cfg st envs).1
          = dayCount d st + totalSent (runCycles cfg st envs).2
      ∧ numResets (runCycles cfg st envs).2 ≤ (if st.lastResetDate = d then 0 else 1) := by
  intro envs
  induction envs with
  | nil =>
    intro st _ hc
    exact ⟨hc, by simp [runCycles, totalSent], by simp [runCycles, numResets]⟩
  | cons e rest ih =>
    intro st hdate hc
    have hed : e.date = d := hdate e (List.mem_cons_self _ _)
    have hcf := cycle_facts cfg st e hc
    rw [hed] at hcf
    have ihr := ih (processScheduledMessages cfg st e).state
      (fun e2 he2 => hdate e2 (List.mem_cons_of_mem _ he2)) hcf.1
    simp only [runCycles]
    refine ⟨ihr.1, ?_, ?_⟩
    · have h2 := ihr.2.1
      have h3 := hcf.2.1
      rw [totalSent_cons]
      omega
    · rw [numResets_cons]
      cases hdid : (processScheduledMessages cfg st e).didReset with
      | true =>
        obtain ⟨hne, hnew⟩ := hcf.2.2.1 hdid
        have h5 := ihr.2.2
        simp [hnew] at h5
        simp [hdid, hne]
        omega
      | false =>
        have hsame := hcf.2.2.2 hdid
        have h5 := ihr.2.2
        rw [hsame] at h5
        simp only [Bool.false_eq_true, if_false]
        omega

end ScheduledMessages
/-! ## Claim theorems: Scheduled Dispatch Engine -/

open JsPrim AList ScheduledMessages MessageBuffer HumanHandoff Survey App

/-- C1 (counterexample): the spec says a backlog entry with
`dueAt = "31/02/2024 99:99"` and status Pending is excluded from the due set,
logged, and never sent.  On the code, `parseDateTime` feeds the out-of-range
fields to `new Date`, which rolls them over to 2024-03-06 04:39:00, so once
that time has passed the entry is in the due set, is delivered, and its status
is updated to `Enviado`; nothing is logged as invalid. -/
theorem scenarioD_rolled_over_and_sent :
    parseDateTime "31/02/2024 99:99" = DateResult.at 1709699940000
    ∧ isDue 1800000000000 ⟨2, "56911112222", "hola", "", "31/02/2024 99:99", "Pendiente"⟩ = true
    ∧ (processScheduledMessages defaultConfig ⟨false, 0, "boot", true⟩
        ⟨"Mon Oct 12 2026", 12, 1800000000000,
         [⟨2, "56911112222", "hola", "", "31/02/2024 99:99", "Pendiente"⟩],
         fun _ => true⟩).sent
      = [⟨2, "56911112222", "hola", "", "31/02/2024 99:99", "Pendiente"⟩]
    ∧ (processScheduledMessages defaultConfig ⟨false, 0, "boot", true⟩
        ⟨"Mon Oct 12 2026", 12, 1800000000000,
         [⟨2, "56911112222", "hola", "", "31/02/2024 99:99", "Pendiente"⟩],
         fun _ => true⟩).statusUpdates = [(2, "Enviado")]
    ∧ (processScheduledMessages defaultConfig ⟨false, 0, "boot", true⟩
        ⟨"Mon Oct 12 2026", 12, 1800000000000,
         [⟨2, "56911112222", "hola", "", "31/02/2024 99:99", "Pendiente"⟩],
         fun _ => true⟩).invalidLogged = [] := by
  decide

/-- C1 (amended): a Pending backlog entry whose `dueAt` fails to parse
(`parseDateTime` returns `null`: empty, missing time part, or fewer than three
date fields) is excluded from the due set, is never delivered, every status
write of the cycle concerns a due row, and — whenever the cycle reaches the
backlog filter — the entry is logged as having an invalid hour.  (An entry
whose numeric fields merely lie out of range, such as `"31/02/2024 99:99"`, is
instead rolled over by the `Date` constructor and is sent once due.) -/
theorem unparsable_dueAt_excluded (cfg : Config) (st : EngineState) (env : CycleEnv)
    (row : MsgRow) (hnull : parseDateTime row.hora = DateResult.null) :
    row ∉ env.rows.filter (isDue env.nowMs)
    ∧ row ∉ (processScheduledMessages cfg st env).sent
    ∧ (∀ u ∈ (processScheduledMessages cfg st env).statusUpdates,
        ∃ r ∈ env.rows.filter (isDue env.nowMs), u.1 = r.rowIndex)
    ∧ (reachesFetch cfg st env = true → row ∈ env.rows →
        jsToLower row.estado = "pendiente" →
        row ∈ (processScheduledMessages cfg st env).invalidLogged) := by
  have hnotdue : isDue env.nowMs row = false := by simp [isDue, hnull]
  have hnotmem : row ∉ env.rows.filter (isDue env.nowMs) := by
    intro hmem
    rw [List.mem_filter, hnotdue] at hmem
    exact absurd hmem.2 (by simp)
  refine ⟨hnotmem, ?_, ?_, ?_⟩
  · rcases processScheduledMessages_shape cfg st env with h | h | ⟨c0, hs, _, _⟩
    · rw [h.1]; simp
    · rw [h.1]; simp
    · rw [hs]
      intro hmem
      exact hnotmem ((sendLoop_spec cfg.maxDailyMessages env.sendOk
        (env.rows.filter (isDue env.nowMs)) 0 c0).2.2.1 row hmem)
  · rcases processScheduledMessages_shape cfg st env with h | h | ⟨c0, _, hu, _⟩
    · rw [h.2.1]; simp
    · rw [h.2.1]; simp
    · rw [hu]
      exact (sendLoop_spec cfg.maxDailyMessages env.sendOk
        (env.rows.filter (isDue env.nowMs)) 0 c0).2.2.2
  · intro hreach hmemrows hpend
    rw [reachesFetch_invalidLogged cfg st env hreach, List.mem_filter]
    exact ⟨hmemrows, by simp [isInvalidLogged, hpend, hnull]⟩

/-- Witness for the amended C1 at a concrete unparsable row. -/
theorem unparsable_dueAt_excluded_witness :
    parseDateTime "banana" = DateResult.null
    ∧ (let row : MsgRow := ⟨3, "56900000000", "x", "", "banana", "Pendiente"⟩
       let env : CycleEnv := ⟨"E", 12, 0, [row], fun _ => true⟩
       let st : EngineState := ⟨false, 0, "D", true⟩
       row ∉ env.rows.filter (isDue env.nowMs)
       ∧ row ∉ (processScheduledMessages defaultConfig st env).sent
       ∧ (∀ u ∈ (processScheduledMessages defaultConfig st env).statusUpdates,
           ∃ r ∈ env.rows.filter (isDue env.nowMs), u.1 = r.rowIndex)
       ∧ (reachesFetch defaultConfig st env = true → row ∈ env.rows →
           jsToLower row.estado = "pendiente" →
           row ∈ (processScheduledMessages defaultConfig st env).invalidLogged)) :=
  ⟨by decide, unparsable_dueAt_excluded defaultConfig ⟨false, 0, "D", true⟩
    ⟨"E", 12, 0, [⟨3, "56900000000", "x", "", "banana", "Pendiente"⟩], fun _ => true⟩
    ⟨3, "56900000000", "x", "", "banana", "Pendiente"⟩ (by decide)⟩

/-- C2: over any run of dispatch cycles observing one calendar date `d`, the
deliveries of the run plus whatever the counter already accounted to `d`
never exceed `maxDailyMessages`; at most one cycle of the run resets the
counter; and a cycle that passes its guards and observes a new date resets
the counter before the cap check — its outcome is exactly that of the same
cycle started with a zero counter, and it reports the reset. -/
theorem scheduler_daily_cap_and_single_reset (cfg : Config) (st : EngineState)
    (envs : List CycleEnv) (d : String)
    (hdates : ∀ e ∈ envs, e.date = d)
    (hinit : st.dailySentCount ≤ cfg.maxDailyMessages) :
    totalSent (runCycles cfg st envs).2 + dayCount d st ≤ cfg.maxDailyMessages
    ∧ numResets (runCycles cfg st envs).2 ≤ 1
    ∧ ∀ (e : CycleEnv) (st0 : EngineState), st0.isProcessing = false →
        st0.hasProvider = true → isWithinAllowedHours cfg e.hour = true →
        e.date ≠ st0.lastResetDate →
        (processScheduledMessages cfg st0 e).didReset = true
        ∧ processScheduledMessages cfg st0 e
            = processScheduledMessages cfg { st0 with dailySentCount := 0 } e := by
  have hrf := runCycles_facts cfg d envs st hdates hinit
  refine ⟨?_, ?_, ?_⟩
  · have h1 := hrf.1
    have h2 := hrf.2.1
    have h3 : dayCount d (runCycles cfg st envs).1 ≤ (runCycles cfg st envs).1.dailySentCount := by
      unfold dayCount; split <;> omega
    omega
  · have h4 := hrf.2.2
    split at h4 <;> omega
  · intro e st0 hp hprov hhours hdiff
    have h1 : ¬(st0.isProcessing || !st0.hasProvider) = true := by simp [hp, hprov]
    have h1b : ¬(({ st0 with dailySentCount := 0 } : EngineState).isProcessing
        || !({ st0 with dailySentCount := 0 } : EngineState).hasProvider) = true := by
      simp [hp, hprov]
    have h2 : ¬(!isWithinAllowedHours cfg e.hour) = true := by simp [hhours]
    have hcd := checkDailyReset_pos { st0 with isProcessing := true } e.date hdiff
    have hcd2 := checkDailyReset_pos
      { ({ st0 with dailySentCount := 0 } : EngineState) with isProcessing := true } e.date hdiff
    constructor
    · simp only [processScheduledMessages, cycleBody]
      rw [if_neg h1, if_neg h2, hcd]
      dsimp only
      by_cases h3 : cfg.maxDailyMessages ≤ 0
      · rw [if_pos h3]
      · rw [if_neg h3]
        by_cases h4 : (e.rows.filter (isDue e.nowMs)).isEmpty = true
        · rw [if_pos h4]
        · rw [if_neg h4]
    · simp only [processScheduledMessages, cycleBody]
      rw [if_neg h1, if_neg h1b, hcd, hcd2, if_neg h2, if_neg h2]

/-- Witness for C2 at a concrete two-cycle same-date run with a full backlog. -/
theorem scheduler_daily_cap_witness :
    (∀ e ∈ [(⟨"D", 12, 10, [⟨2, "111", "a", "", "01/01/2020 00:00", "Pendiente"⟩],
        fun _ => true⟩ : CycleEnv),
      ⟨"D", 13, 20, [⟨3, "222", "b", "", "01/01/2020 00:00", "Pendiente"⟩], fun _ => false⟩],
        e.date = "D")
    ∧ (totalSent (runCycles defaultConfig ⟨false, 0, "boot", true⟩
        [⟨"D", 12, 10, [⟨2, "111", "a", "", "01/01/2020 00:00", "Pendiente"⟩], fun _ => true⟩,
         ⟨"D", 13, 20, [⟨3, "222", "b", "", "01/01/2020 00:00", "Pendiente"⟩],
          fun _ => false⟩]).2
        + dayCount "D" ⟨false, 0, "boot", true⟩ ≤ defaultConfig.maxDailyMessages
      ∧ numResets (runCycles defaultConfig ⟨false, 0, "boot", true⟩
        [⟨"D", 12, 10, [⟨2, "111", "a", "", "01/01/2020 00:00", "Pendiente"⟩], fun _ => true⟩,
         ⟨"D", 13, 20, [⟨3, "222", "b", "", "01/01/2020 00:00", "Pendiente"⟩],
          fun _ => false⟩]).2 ≤ 1
      ∧ ∀ (e : CycleEnv) (st0 : EngineState), st0.isProcessing = false →
          st0.hasProvider = true → isWithinAllowedHours defaultConfig e.hour = true →
          e.date ≠ st0.lastResetDate →
          (processScheduledMessages defaultConfig st0 e).didReset = true
          ∧ processScheduledMessages defaultConfig st0 e
              = processScheduledMessages defaultConfig { st0 with dailySentCount := 0 } e) :=
  ⟨by decide, scheduler_daily_cap_and_single_reset defaultConfig ⟨false, 0, "boot", true⟩
    [⟨"D", 12, 10, [⟨2, "111", "a", "", "01/01/2020 00:00", "Pendiente"⟩], fun _ => true⟩,
     ⟨"D", 13, 20, [⟨3, "222", "b", "", "01/01/2020 00:00", "Pendiente"⟩], fun _ => false⟩]
    "D" (by decide) (by decide)⟩

/-- C5: a poll invocation that starts while the in-flight flag is held is a
complete no-op — it processes no backlog, writes no status, logs nothing and
leaves the state untouched — and every cycle, across all environments
(delivery failures included), leaves the in-flight flag exactly as it found
it, so a cycle that acquired the flag always releases it on exit. -/
theorem dispatch_inflight_guard (cfg : Config) (st : EngineState) (env : CycleEnv) :
    (st.isProcessing = true → processScheduledMessages cfg st env
      = ⟨st, [], [], false, []⟩)
    ∧ (processScheduledMessages cfg st env).state.isProcessing = st.isProcessing := by
  constructor
  · intro hp
    simp only [processScheduledMessages]
    rw [if_pos (by simp [hp])]
  · by_cases h1 : (st.isProcessing || !st.hasProvider) = true
    · simp only [processScheduledMessages]
      rw [if_pos h1]
    · have h1s := h1
      simp at h1s
      simp only [processScheduledMessages]
      rw [if_neg h1]
      exact h1s.1.symm

/-- Witness for C5: a cycle invoked with the flag held is a no-op, and a
normal failed-delivery cycle exits with the flag released. -/
theorem dispatch_inflight_guard_witness :
    processScheduledMessages defaultConfig ⟨true, 7, "D", true⟩
        ⟨"D", 12, 10, [⟨2, "111", "a", "", "01/01/2020 00:00", "Pendiente"⟩], fun _ => false⟩
      = ⟨⟨true, 7, "D", true⟩, [], [], false, []⟩
    ∧ (processScheduledMessages defaultConfig ⟨false, 3, "D", true⟩
        ⟨"D", 12, 10, [⟨2, "111", "a", "", "01/01/2020 00:00", "Pendiente"⟩],
         fun _ => false⟩).state.isProcessing = false :=
  ⟨(dispatch_inflight_guard defaultConfig ⟨true, 7, "D", true⟩
      ⟨"D", 12, 10, [⟨2, "111", "a", "", "01/01/2020 00:00", "Pendiente"⟩],
       fun _ => false⟩).1 rfl,
   (dispatch_inflight_guard defaultConfig ⟨false, 3, "D", true⟩
      ⟨"D", 12, 10, [⟨2, "111", "a", "", "01/01/2020 00:00", "Pendiente"⟩],
       fun _ => false⟩).2⟩

/-! ## Debounce Aggregator: lemmas -/

namespace MessageBuffer

open JsPrim

theorem stepArrival_live (cfg : BufCfg) (msgs : List String) (res : List Resolution)
    (k : Nat) (t0 tp t : Int) (m : String)
    (h1 : t < tp + cfg.waitTimeMs) (h2 : t < t0 + cfg.maxWaitTimeMs) (hw : 0 < cfg.waitTimeMs) :
    stepArrival cfg ⟨some ⟨msgs, t0, min (tp + cfg.waitTimeMs) (t0 + cfg.maxWaitTimeMs), k⟩,
        res, k + 1⟩ (t, m)
      = ⟨some ⟨msgs ++ [jsTrim m], t0, min (t + cfg.waitTimeMs) (t0 + cfg.maxWaitTimeMs), k + 1⟩,
         res ++ [⟨k, t, none, t0⟩], k + 2⟩ := by
  have hd : ¬(min (tp + cfg.waitTimeMs) (t0 + cfg.maxWaitTimeMs) ≤ t) := by
    simp only [not_le]
    exact lt_min h1 h2
  have hwt : ¬(min cfg.waitTimeMs (cfg.maxWaitTimeMs - (t - t0)) ≤ 0) := by
    simp only [not_le]
    exact lt_min hw (by omega)
  have hdl : t + min cfg.waitTimeMs (cfg.maxWaitTimeMs - (t - t0))
      = min (t + cfg.waitTimeMs) (t0 + cfg.maxWaitTimeMs) := by
    rw [← min_add_add_left]
    congr 1
    ring
  simp only [stepArrival]
  rw [if_neg hd]
  simp only [addMessage]
  rw [if_neg hwt, hdl]

theorem runArrivals_live (cfg : BufCfg) (hw : 0 < cfg.waitTimeMs) :
    ∀ (rest : List (Int × String)) (msgs : List String) (res : List Resolution) (k : Nat)
      (t0 tp : Int), Rapid cfg t0 tp rest = true →
      runArrivals cfg ⟨some ⟨msgs, t0, min (tp + cfg.waitTimeMs) (t0 + cfg.maxWaitTimeMs), k⟩,
        res, k + 1⟩ rest
      = ⟨none, res ++ expectedRes cfg msgs k t0 tp rest, k + 1 + rest.length⟩ := by
  intro rest
  induction rest with
  | nil =>
    intro msgs res k t0 tp _
    simp [runArrivals, finishRun, processBuffer, expectedRes]
  | cons e rest2 ih =>
    obtain ⟨t, m⟩ := e
    intro msgs res k t0 tp hrap
    simp only [Rapid, Bool.and_eq_true, decide_eq_true_eq] at hrap
    obtain ⟨⟨h1, h2⟩, hrest⟩ := hrap
    have hrun : runArrivals cfg ⟨some ⟨msgs, t0,
        min (tp + cfg.waitTimeMs) (t0 + cfg.maxWaitTimeMs), k⟩, res, k + 1⟩ ((t, m) :: rest2)
        = runArrivals cfg (stepArrival cfg ⟨some ⟨msgs, t0,
            min (tp + cfg.waitTimeMs) (t0 + cfg.maxWaitTimeMs), k⟩, res, k + 1⟩ (t, m)) rest2 :=
      rfl
    rw [hrun, stepArrival_live cfg msgs res k t0 tp t m h1 h2 hw]
    have hih := ih (msgs ++ [jsTrim m]) (res ++ [⟨k, t, none, t0⟩]) (k + 1) t0 t hrest
    rw [hih]
    simp only [expectedRes, List.append_assoc, List.length_cons, List.cons_append,
      List.nil_append, BufState.mk.injEq]
    refine ⟨trivial, trivial, by omega⟩

theorem getLastD_fst_default (l : List (Int × String)) (t : Int) (m1 m2 : String) :
    (l.getLastD (t, m1)).1 = (l.getLastD (t, m2)).1 := by
  cases l with
  | nil => rfl
  | cons a l2 =>
    rw [List.getLastD_eq_getLast?, List.getLastD_eq_getLast?]
    cases hx : (a :: l2).getLast? <;> simp [hx]

theorem expectedRes_length (cfg : BufCfg) :
    ∀ (rest : List (Int × String)) (msgs : List String) (k : Nat) (t0 tp : Int),
      (expectedRes cfg msgs k t0 tp rest).length = rest.length + 1 := by
  intro rest
  induction rest with
  | nil => intro msgs k t0 tp; simp [expectedRes]
  | cons e rest2 ih =>
    obtain ⟨t, m⟩ := e
    intro msgs k t0 tp
    simp [expectedRes, ih]

theorem expectedRes_getD (cfg : BufCfg) :
    ∀ (rest : List (Int × String)) (msgs : List String) (k : Nat) (t0 tp : Int) (i : Nat),
      i < rest.length →
      (expectedRes cfg msgs k t0 tp rest).getD i ⟨0, 0, none, 0⟩
        = ⟨k + i, (rest.getD i (0, "")).1, none, t0⟩ := by
  intro rest
  induction rest with
  | nil => intro msgs k t0 tp i hi; simp at hi
  | cons e rest2 ih =>
    obtain ⟨t, m⟩ := e
    intro msgs k t0 tp i hi
    cases i with
    | zero => simp [expectedRes]
    | succ j =>
      simp only [List.length_cons, Nat.succ_lt_succ_iff] at hi
      simp only [expectedRes, List.getD_cons_succ]
      rw [ih (msgs ++ [jsTrim m]) (k + 1) t0 t j hi]
      have hkj : k + 1 + j = k + (j + 1) := by omega
      rw [hkj]

theorem expectedRes_getLast (cfg : BufCfg) :
    ∀ (rest : List (Int × String)) (msgs : List String) (k : Nat) (t0 tp : Int)
      (d : Resolution),
      (expectedRes cfg msgs k t0 tp rest).getLastD d
        = ⟨k + rest.length,
           min ((rest.getLastD (tp, "")).1 + cfg.waitTimeMs) (t0 + cfg.maxWaitTimeMs),
           some (String.intercalate cfg.separator (msgs ++ rest.map fun p => jsTrim p.2),
                 msgs.length + rest.length), t0⟩ := by
  intro rest
  induction rest with
  | nil =>
    intro msgs k t0 tp d
    simp [expectedRes]
  | cons e rest2 ih =>
    obtain ⟨t, m⟩ := e
    intro msgs k t0 tp d
    simp only [expectedRes, List.getLastD_cons]
    rw [ih (msgs ++ [jsTrim m]) (k + 1) t0 t]
    rw [getLastD_fst_default rest2 t m ""]
    simp only [List.length_cons, List.length_append, List.length_singleton, List.length_nil,
      Nat.zero_add, List.append_assoc, List.singleton_append, List.map_cons]
    have h1 : k + 1 + rest2.length = k + (rest2.length + 1) := by omega
    have h2 : msgs.length + 1 + rest2.length = msgs.length + (rest2.length + 1) := by omega
    rw [h1, h2]

theorem expectedRes_filter (cfg : BufCfg) :
    ∀ (rest : List (Int × String)) (msgs : List String) (k : Nat) (t0 tp : Int),
      ((expectedRes cfg msgs k t0 tp rest).filter fun r => r.value.isSome).length = 1 := by
  intro rest
  induction rest with
  | nil => intro msgs k t0 tp; simp [expectedRes]
  | cons e rest2 ih =>
    obtain ⟨t, m⟩ := e
    intro msgs k t0 tp
    simp [expectedRes, ih]

theorem stepArrival_good (cfg : BufCfg) (hw : 0 < cfg.waitTimeMs) (hM : 0 < cfg.maxWaitTimeMs)
    (s : BufState) (e : Int × String) (hg : GoodBufState cfg.maxWaitTimeMs s) :
    GoodBufState cfg.maxWaitTimeMs (stepArrival cfg s e) := by
  obtain ⟨t, m⟩ := e
  obtain ⟨hbuf, hres⟩ := hg
  have fresh : ∀ (s2 : BufState), s2.buf = none →
      (∀ r ∈ s2.resolutions, r.value.isSome = true →
        r.time ≤ r.bufferStart + cfg.maxWaitTimeMs) →
      GoodBufState cfg.maxWaitTimeMs (addMessage cfg t m s2) := by
    intro s2 hb2 hr2
    simp only [addMessage, hb2]
    have hwt : ¬(min cfg.waitTimeMs (cfg.maxWaitTimeMs - (t - t)) ≤ 0) := by
      simp only [not_le]
      exact lt_min hw (by omega)
    rw [if_neg hwt]
    refine ⟨?_, ?_⟩
    · intro b hb
      simp only [Option.some.injEq] at hb
      rw [← hb]
      have : min cfg.waitTimeMs (cfg.maxWaitTimeMs - (t - t)) ≤ cfg.maxWaitTimeMs - (t - t) :=
        min_le_right _ _
      simp only
      omega
    · intro r hr
      exact hr2 r hr
  cases hb : s.buf with
  | none =>
    simp only [stepArrival, hb]
    exact fresh s hb hres
  | some b =>
    simp only [stepArrival, hb]
    by_cases hd : b.deadline ≤ t
    · rw [if_pos hd]
      have hflush : GoodBufState cfg.maxWaitTimeMs (processBuffer cfg b.deadline s) := by
        simp only [processBuffer, hb]
        refine ⟨by simp, ?_⟩
        intro r hr hsome
        rcases List.mem_append.mp hr with h1 | h1
        · exact hres r h1 hsome
        · simp only [List.mem_singleton] at h1
          rw [h1]
          exact hbuf b hb
      refine fresh (processBuffer cfg b.deadline s) ?_ hflush.2
      simp [processBuffer, hb]
    · rw [if_neg hd]
      have hwt : ¬(min cfg.waitTimeMs (cfg.maxWaitTimeMs - (t - b.firstMessageTime)) ≤ 0) := by
        simp only [not_le]
        refine lt_min hw ?_
        have := hbuf b hb
        omega
      simp only [addMessage, hb]
      rw [if_neg hwt]
      refine ⟨?_, ?_⟩
      · intro b2 hb2
        simp only [Option.some.injEq] at hb2
        rw [← hb2]
        have : min cfg.waitTimeMs (cfg.maxWaitTimeMs - (t - b.firstMessageTime))
            ≤ cfg.maxWaitTimeMs - (t - b.firstMessageTime) := min_le_right _ _
        simp only
        omega
      · intro r hr hsome
        rcases List.mem_append.mp hr with h1 | h1
        · exact hres r h1 hsome
        · simp only [List.mem_singleton] at h1
          rw [h1] at hsome
          simp at hsome

theorem foldl_stepArrival_good (cfg : BufCfg) (hw : 0 < cfg.waitTimeMs)
    (hM : 0 < cfg.maxWaitTimeMs) :
    ∀ (l : List (Int × String)) (s : BufState), GoodBufState cfg.maxWaitTimeMs s →
      GoodBufState cfg.maxWaitTimeMs (l.foldl (stepArrival cfg) s) := by
  intro l
  induction l with
  | nil => intro s hg; exact hg
  | cons e rest ih =>
    intro s hg
    exact ih (stepArrival cfg s e) (stepArrival_good cfg hw hM s e hg)

theorem finishRun_good (cfg : BufCfg) (s : BufState)
    (hg : GoodBufState cfg.maxWaitTimeMs s) :
    ∀ r ∈ (finishRun cfg s).resolutions, r.value.isSome = true →
      r.time ≤ r.bufferStart + cfg.maxWaitTimeMs := by
  obtain ⟨hbuf, hres⟩ := hg
  cases hb : s.buf with
  | none => simpa [finishRun, hb] using hres
  | some b =>
    simp only [finishRun, hb, processBuffer]
    intro r hr hsome
    rcases List.mem_append.mp hr with h1 | h1
    · exact hres r h1 hsome
    · simp only [List.mem_singleton] at h1
      rw [h1]
      exact hbuf b hb

end MessageBuffer

/-! ## Claim theorems: Debounce Aggregator -/

/-- C3 (counterexample): the spec says that for fragments each arriving within
less than the wait window of the previous one, exactly one future resolves
with all fragments joined.  With the default 2.5 s window and 10 s ceiling,
seven fragments arriving 2 s apart all satisfy the wait-window hypothesis, yet
the absolute ceiling flushes the first five as "a b c d e" at 10 s and the
remaining two as "f g" later: two futures resolve with combined text and no
future carries all seven fragments. -/
theorem debounce_ceiling_splits_sequence :
    let arr : List (Int × String) :=
      [(0, "a"), (2000, "b"), (4000, "c"), (6000, "d"), (8000, "e"), (10000, "f"), (12000, "g")]
    (∀ i < 6, (arr.getD (i + 1) (0, "")).1 - (arr.getD i (0, "")).1 < 2500)
    ∧ ((runArrivals defaultBufCfg initBufState arr).resolutions.map fun r => r.value)
        = [none, none, none, none, some ("a b c d e", 5), none, some ("f g", 2)]
    ∧ (∀ r ∈ (runArrivals defaultBufCfg initBufState arr).resolutions,
        r.value ≠ some ("a b c d e f g", 7))
    ∧ ((runArrivals defaultBufCfg initBufState arr).resolutions.filter
        fun r => r.value.isSome).length = 2 := by
  decide

/-- C3 (amended): for fragments submitted for one key, each arriving strictly
within the wait window of the previous one AND strictly before the pending
flush deadline capped by the 10 s absolute ceiling (`Rapid`), every earlier
call's future settles with the superseded signal `null` at the moment the
next fragment arrives, and exactly one future — the last — resolves, at the
final scheduled deadline, with all (trimmed) fragments joined by a single
space in arrival order; no caller waits indefinitely. -/
theorem debounce_rapid_sequence (w M t0 : Int) (m0 : String) (rest : List (Int × String))
    (hw : 0 < w) (hM : 0 < M) (hrap : Rapid ⟨w, M, " "⟩ t0 t0 rest = true) :
    (runArrivals ⟨w, M, " "⟩ initBufState ((t0, m0) :: rest)).resolutions.length
      = rest.length + 1
    ∧ (∀ i, i < rest.length →
        (runArrivals ⟨w, M, " "⟩ initBufState ((t0, m0) :: rest)).resolutions.getD i
            ⟨0, 0, none, 0⟩
          = ⟨i, (rest.getD i (0, "")).1, none, t0⟩)
    ∧ (runArrivals ⟨w, M, " "⟩ initBufState ((t0, m0) :: rest)).resolutions.getLastD
          ⟨0, 0, none, 0⟩
        = ⟨rest.length, min ((rest.getLastD (t0, "")).1 + w) (t0 + M),
           some (String.intercalate " " (jsTrim m0 :: rest.map fun p => jsTrim p.2),
                 1 + rest.length), t0⟩
    ∧ ((runArrivals ⟨w, M, " "⟩ initBufState ((t0, m0) :: rest)).resolutions.filter
        fun r => r.value.isSome).length = 1 := by
  have hfresh : stepArrival ⟨w, M, " "⟩ initBufState (t0, m0)
      = ⟨some ⟨[jsTrim m0], t0, min (t0 + w) (t0 + M), 0⟩, [], 1⟩ := by
    have hwt : ¬(min w (M - (t0 - t0)) ≤ 0) := by
      simp only [not_le]
      exact lt_min hw (by omega)
    have hdl : t0 + min w (M - (t0 - t0)) = min (t0 + w) (t0 + M) := by
      rw [← min_add_add_left]
      congr 1
      ring
    simp only [stepArrival, initBufState, addMessage]
    rw [if_neg hwt, hdl]
  have hstart : runArrivals ⟨w, M, " "⟩ initBufState ((t0, m0) :: rest)
      = ⟨none, [] ++ expectedRes ⟨w, M, " "⟩ [jsTrim m0] 0 t0 t0 rest, 0 + 1 + rest.length⟩ := by
    have hrun : runArrivals ⟨w, M, " "⟩ initBufState ((t0, m0) :: rest)
        = runArrivals ⟨w, M, " "⟩ (stepArrival ⟨w, M, " "⟩ initBufState (t0, m0)) rest := rfl
    rw [hrun, hfresh]
    exact runArrivals_live ⟨w, M, " "⟩ hw rest [jsTrim m0] [] 0 t0 t0 hrap
  rw [hstart]
  simp only [List.nil_append]
  refine ⟨expectedRes_length ⟨w, M, " "⟩ rest [jsTrim m0] 0 t0 t0, ?_, ?_, ?_⟩
  · intro i hi
    rw [expectedRes_getD ⟨w, M, " "⟩ rest [jsTrim m0] 0 t0 t0 i hi]
    simp
  · rw [expectedRes_getLast ⟨w, M, " "⟩ rest [jsTrim m0] 0 t0 t0]
    simp
  · exact expectedRes_filter ⟨w, M, " "⟩ rest [jsTrim m0] 0 t0 t0

/-- Witness for the amended C3: Scenario A — "Hola", "quiero", "comprar"
500 ms apart yield two superseded futures and one future resolving with
"Hola quiero comprar". -/
theorem debounce_rapid_sequence_witness :
    (0 : Int) < 2500 ∧ (0 : Int) < 10000
    ∧ Rapid ⟨2500, 10000, " "⟩ 0 0 [(500, "quiero"), (1000, "comprar")] = true
    ∧ ((runArrivals ⟨2500, 10000, " "⟩ initBufState
        [(0, "Hola"), (500, "quiero"), (1000, "comprar")]).resolutions.map fun r => r.value)
        = [none, none, some ("Hola quiero comprar", 3)]
    ∧ ((runArrivals ⟨2500, 10000, " "⟩ initBufState
          [(0, "Hola"), (500, "quiero"), (1000, "comprar")]).resolutions.length
        = [(500, "quiero"), (1000, "comprar")].length + 1
      ∧ (∀ i, i < [((500 : Int), "quiero"), (1000, "comprar")].length →
          (runArrivals ⟨2500, 10000, " "⟩ initBufState
            [(0, "Hola"), (500, "quiero"), (1000, "comprar")]).resolutions.getD i
              ⟨0, 0, none, 0⟩
            = ⟨i, ([((500 : Int), "quiero"), (1000, "comprar")].getD i (0, "")).1, none, 0⟩)
      ∧ (runArrivals ⟨2500, 10000, " "⟩ initBufState
            [(0, "Hola"), (500, "quiero"), (1000, "comprar")]).resolutions.getLastD
            ⟨0, 0, none, 0⟩
          = ⟨[((500 : Int), "quiero"), (1000, "comprar")].length,
             min (([((500 : Int), "quiero"), (1000, "comprar")].getLastD (0, "")).1 + 2500)
               (0 + 10000),
             some (String.intercalate " "
                (jsTrim "Hola" ::
                  [((500 : Int), "quiero"), (1000, "comprar")].map fun p => jsTrim p.2),
               1 + [((500 : Int), "quiero"), (1000, "comprar")].length), 0⟩
      ∧ ((runArrivals ⟨2500, 10000, " "⟩ initBufState
            [(0, "Hola"), (500, "quiero"), (1000, "comprar")]).resolutions.filter
          fun r => r.value.isSome).length = 1) :=
  ⟨by decide, by decide, by decide, by decide,
   debounce_rapid_sequence 2500 10000 0 "Hola" [(500, "quiero"), (1000, "comprar")]
     (by decide) (by decide) (by decide)⟩

/-- C4: with a positive wait window and ceiling, (i) every flushed future of
any event-loop trace settles within `maxWaitTimeMs` of its buffer's first
fragment; (ii) after any prefix of the trace, a live buffer's scheduled wait
is capped so its deadline is at most `firstMessageTime + maxWaitTimeMs`; and
(iii) a submission arriving at or past the ceiling flushes the buffer
synchronously inside `addMessage`, settling the previous future as superseded
and the new future with the full combined text at the submission time. -/
theorem debounce_absolute_ceiling (w M : Int) (sep : String) (arrivals : List (Int × String))
    (hw : 0 < w) (hM : 0 < M) :
    (∀ r ∈ (runArrivals ⟨w, M, sep⟩ initBufState arrivals).resolutions,
        r.value.isSome = true → r.time ≤ r.bufferStart + M)
    ∧ (∀ l1 l2 : List (Int × String), arrivals = l1 ++ l2 →
        ∀ b, (l1.foldl (stepArrival ⟨w, M, sep⟩) initBufState).buf = some b →
          b.deadline ≤ b.firstMessageTime + M)
    ∧ (∀ (s : BufState) (b : Buffer) (t : Int) (m : String), s.buf = some b →
        b.firstMessageTime + M ≤ t →
        (addMessage ⟨w, M, sep⟩ t m s).buf = none
        ∧ (addMessage ⟨w, M, sep⟩ t m s).resolutions
            = s.resolutions ++ [⟨b.resolveIdx, t, none, b.firstMessageTime⟩,
               ⟨s.nextIdx, t,
                some (String.intercalate sep (b.messages ++ [jsTrim m]),
                  b.messages.length + 1),
                b.firstMessageTime⟩]) := by
  have hinit : GoodBufState M initBufState := ⟨by simp [initBufState], by simp [initBufState]⟩
  refine ⟨?_, ?_, ?_⟩
  · exact finishRun_good ⟨w, M, sep⟩ _
      (foldl_stepArrival_good ⟨w, M, sep⟩ hw hM arrivals initBufState hinit)
  · intro l1 l2 _ b hb
    exact (foldl_stepArrival_good ⟨w, M, sep⟩ hw hM l1 initBufState hinit).1 b hb
  · intro s b t m hb hceil
    have hwt : min w (M - (t - b.firstMessageTime)) ≤ 0 :=
      le_trans (min_le_right _ _) (by omega)
    simp only [addMessage, hb]
    rw [if_pos hwt]
    simp only [processBuffer]
    exact ⟨trivial, by simp⟩

/-- Witness for C4 at a concrete trace whose second arrival comes after the
ceiling of the first buffer. -/
theorem debounce_absolute_ceiling_witness :
    (0 : Int) < 2500 ∧ (0 : Int) < 10000
    ∧ ((∀ r ∈ (runArrivals ⟨2500, 10000, " "⟩ initBufState
          [(0, "a"), (12000, "b")]).resolutions,
        r.value.isSome = true → r.time ≤ r.bufferStart + 10000)
      ∧ (∀ l1 l2 : List (Int × String), [((0 : Int), "a"), (12000, "b")] = l1 ++ l2 →
          ∀ b, (l1.foldl (stepArrival ⟨2500, 10000, " "⟩) initBufState).buf = some b →
            b.deadline ≤ b.firstMessageTime + 10000)
      ∧ (∀ (s : BufState) (b : Buffer) (t : Int) (m : String), s.buf = some b →
          b.firstMessageTime + 10000 ≤ t →
          (addMessage ⟨2500, 10000, " "⟩ t m s).buf = none
          ∧ (addMessage ⟨2500, 10000, " "⟩ t m s).resolutions
              = s.resolutions ++ [⟨b.resolveIdx, t, none, b.firstMessageTime⟩,
                 ⟨s.nextIdx, t,
                  some (String.intercalate " " (b.messages ++ [jsTrim m]),
                    b.messages.length + 1),
                  b.firstMessageTime⟩])) :=
  ⟨by decide, by decide,
   debounce_absolute_ceiling 2500 10000 " " [(0, "a"), (12000, "b")] (by decide) (by decide)⟩

/-! ## Handoff Pause Manager: lemmas -/

namespace HumanHandoff

open JsPrim AList

theorem isPaused_true_snd (st : HandoffState) (now : Int) (p : String)
    (h : (isPaused st now p).1 = true) : (isPaused st now p).2 = st := by
  simp only [isPaused] at h ⊢
  cases hl : alLookup (cleanNumber p) st.pausedChats with
  | none => simp [hl] at h
  | some info =>
    simp only [hl] at h ⊢
    by_cases he : info.expiresAt < now
    · rw [if_pos he] at h
      simp at h
    · rw [if_neg he]

end HumanHandoff

/-! ## Claim theorems: Handoff Pause Manager and Conversation Mode Router -/

/-- C8: `pause` then `isPaused` at the same instant answers `true` without
touching the map; `isPaused` answers `false` without state change when no
record exists; a live record answers `true` without state change; an expired
record (`expiresAt < now`) makes `isPaused` answer `false`, delete exactly
that record and nothing else; and `pauseChat`/`resumeChat` touch no other
key — expiry eviction happens only inside `isPaused`. -/
theorem pause_isPaused_semantics (st : HandoffState) (now : Int) (phoneNumber reason : String) :
    ((isPaused (pauseChat st now phoneNumber reason) now phoneNumber).1 = true
      ∧ (isPaused (pauseChat st now phoneNumber reason) now phoneNumber).2
          = pauseChat st now phoneNumber reason)
    ∧ (alLookup (cleanNumber phoneNumber) st.pausedChats = none →
        isPaused st now phoneNumber = (false, st))
    ∧ (∀ info, alLookup (cleanNumber phoneNumber) st.pausedChats = some info →
        now ≤ info.expiresAt → isPaused st now phoneNumber = (true, st))
    ∧ (∀ info, (st.pausedChats.map Prod.fst).Nodup →
        alLookup (cleanNumber phoneNumber) st.pausedChats = some info →
        info.expiresAt < now →
        (isPaused st now phoneNumber).1 = false
        ∧ alLookup (cleanNumber phoneNumber)
            (isPaused st now phoneNumber).2.pausedChats = none
        ∧ ∀ k2, k2 ≠ cleanNumber phoneNumber →
            alLookup k2 (isPaused st now phoneNumber).2.pausedChats
              = alLookup k2 st.pausedChats)
    ∧ ∀ k2, k2 ≠ cleanNumber phoneNumber →
        alLookup k2 (pauseChat st now phoneNumber reason).pausedChats
          = alLookup k2 st.pausedChats
        ∧ alLookup k2 (resumeChat st phoneNumber).2.pausedChats
          = alLookup k2 st.pausedChats := by
  refine ⟨?_, ?_, ?_, ?_, ?_⟩
  · simp only [isPaused, pauseChat, alLookup_alSet_self]
    rw [if_neg (show ¬now + (st.config.pauseMinutes : Int) * 60 * 1000 < now by omega)]
    exact ⟨rfl, rfl⟩
  · intro hnone
    simp only [isPaused, hnone]
  · intro info hsome hlive
    simp only [isPaused, hsome]
    rw [if_neg (by omega)]
  · intro info hnd hsome hexp
    simp only [isPaused, hsome]
    rw [if_pos hexp]
    exact ⟨rfl, alLookup_alErase_self _ _ hnd,
      fun k2 hk2 => alLookup_alErase_ne _ k2 _ hk2⟩
  · intro k2 hk2
    constructor
    · simp only [pauseChat]
      exact alLookup_alSet_ne _ k2 _ _ hk2
    · simp only [resumeChat]
      by_cases hl : (alLookup (cleanNumber phoneNumber) st.pausedChats).isSome
      · rw [if_pos hl]
        exact alLookup_alErase_ne _ k2 _ hk2
      · rw [if_neg hl]

/-- Witness for C8 at concrete states: a fresh pause is observed, a missing
record answers false, a live record answers true, and an expired record is
evicted by `isPaused`. -/
theorem pause_isPaused_semantics_witness :
    (isPaused (pauseChat ⟨[], defaultHandoffConfig⟩ 1000 "+56 9 1111 2222" "r") 1000
        "+56 9 1111 2222").1 = true
    ∧ isPaused ⟨[], defaultHandoffConfig⟩ 1000 "777"
        = (false, ⟨[], defaultHandoffConfig⟩)
    ∧ isPaused ⟨[("123", ⟨0, 5, "r"⟩)], defaultHandoffConfig⟩ 3 "123"
        = (true, ⟨[("123", ⟨0, 5, "r"⟩)], defaultHandoffConfig⟩)
    ∧ (isPaused ⟨[("123", ⟨0, 5, "r"⟩)], defaultHandoffConfig⟩ 10 "123").1 = false
    ∧ alLookup "123"
        (isPaused ⟨[("123", ⟨0, 5, "r"⟩)], defaultHandoffConfig⟩ 10 "123").2.pausedChats
      = none :=
  ⟨(pause_isPaused_semantics ⟨[], defaultHandoffConfig⟩ 1000 "+56 9 1111 2222" "r").1.1,
   (pause_isPaused_semantics ⟨[], defaultHandoffConfig⟩ 1000 "777" "x").2.1 (by decide),
   (pause_isPaused_semantics ⟨[("123", ⟨0, 5, "r"⟩)], defaultHandoffConfig⟩ 3 "123" "x").2.2.1
     ⟨0, 5, "r"⟩ (by decide) (by decide),
   ((pause_isPaused_semantics ⟨[("123", ⟨0, 5, "r"⟩)], defaultHandoffConfig⟩ 10 "123" "x").2.2.2.1
     ⟨0, 5, "r"⟩ (by decide) (by decide) (by decide)).1,
   ((pause_isPaused_semantics ⟨[("123", ⟨0, 5, "r"⟩)], defaultHandoffConfig⟩ 10 "123" "x").2.2.2.1
     ⟨0, 5, "r"⟩ (by decide) (by decide) (by decide)).2.1⟩

/-- C10: every Handoff Pause Manager operation keys its map access on the
digits-only form of the phone number, so two representations with the same
digits are interchangeable in `isPaused`, `pauseChat`, `resumeChat` and
`initiateHandoff`; pausing under one makes `isPaused` true and `resumeChat`
succeed under the other. -/
theorem handoff_key_normalization (st : HandoffState) (now t2 : Int)
    (p1 p2 reason msg : String) (h : cleanNumber p1 = cleanNumber p2) :
    isPaused st now p1 = isPaused st now p2
    ∧ pauseChat st now p1 reason = pauseChat st now p2 reason
    ∧ resumeChat st p1 = resumeChat st p2
    ∧ initiateHandoff st now p1 msg = initiateHandoff st now p2 msg
    ∧ (t2 ≤ now + (st.config.pauseMinutes : Int) * 60 * 1000 →
        (isPaused (pauseChat st now p1 reason) t2 p2).1 = true)
    ∧ (resumeChat (pauseChat st now p1 reason) p2).1 = true := by
  refine ⟨by simp only [isPaused, h], by simp only [pauseChat, h],
    by simp only [resumeChat, h], by simp only [initiateHandoff, h], ?_, ?_⟩
  · intro ht2
    simp only [isPaused, pauseChat, ← h, alLookup_alSet_self]
    rw [if_neg (show ¬now + (st.config.pauseMinutes : Int) * 60 * 1000 < t2 by omega)]
  · simp only [resumeChat, pauseChat, ← h, alLookup_alSet_self]
    rw [if_pos (by simp)]

/-- Witness for C10: `"+56 9 1111 2222"` and `"56911112222"` normalise to the
same key and are interchangeable. -/
theorem handoff_key_normalization_witness :
    cleanNumber "+56 9 1111 2222" = cleanNumber "56911112222"
    ∧ cleanNumber "+56 9 1111 2222" = "56911112222"
    ∧ (isPaused (pauseChat ⟨[], defaultHandoffConfig⟩ 1000 "+56 9 1111 2222" "r") 1000
        "56911112222").1 = true
    ∧ (resumeChat (pauseChat ⟨[], defaultHandoffConfig⟩ 1000 "+56 9 1111 2222" "r")
        "56911112222").1 = true
    ∧ initiateHandoff ⟨[], defaultHandoffConfig⟩ 1000 "+56 9 1111 2222" "hola"
        = initiateHandoff ⟨[], defaultHandoffConfig⟩ 1000 "56911112222" "hola" :=
  ⟨by decide, by decide,
   (handoff_key_normalization ⟨[], defaultHandoffConfig⟩ 1000 1000 "+56 9 1111 2222"
     "56911112222" "r" "hola" (by decide)).2.2.2.2.1 (by decide),
   (handoff_key_normalization ⟨[], defaultHandoffConfig⟩ 1000 1000 "+56 9 1111 2222"
     "56911112222" "r" "hola" (by decide)).2.2.2.2.2,
   (handoff_key_normalization ⟨[], defaultHandoffConfig⟩ 1000 1000 "+56 9 1111 2222"
     "56911112222" "r" "hola" (by decide)).2.2.2.1⟩

/-- C9: a coalesced turn for a key whose pause check answers true is dropped
silently: no reply goes out, no provider send happens, and the per-key state
(pause map and survey sessions alike) is completely unchanged — in
particular, an active SurveySession for the key is not advanced, because the
pause check short-circuits before the survey check. -/
theorem paused_turn_dropped (st : App.AppState) (env : App.MsgEnv)
    (phoneNumber userInput : String)
    (h : (isPaused st.handoff env.nowMs phoneNumber).1 = true) :
    App.processMessage st env phoneNumber userInput = ⟨st, [], []⟩ := by
  have hsnd := isPaused_true_snd st.handoff env.nowMs phoneNumber h
  simp only [App.processMessage]
  cases hbl : env.blacklist with
  | ok b =>
    cases b with
    | true => rfl
    | false =>
      simp only [h, hsnd]
      rfl
  | error e =>
    simp only [h, hsnd]
    rfl

/-- Witness for C9: a paused key with an active survey session yields no
reply, no provider send, and identical state. -/
theorem paused_turn_dropped_witness :
    (isPaused (⟨⟨[("123", ⟨0, 1000000, "r"⟩)], defaultHandoffConfig⟩,
        ⟨[("123", ⟨0, [], ["q1"], 0⟩)], ["q1"], []⟩⟩ : App.AppState).handoff 5 "123").1 = true
    ∧ App.processMessage
        ⟨⟨[("123", ⟨0, 1000000, "r"⟩)], defaultHandoffConfig⟩,
         ⟨[("123", ⟨0, [], ["q1"], 0⟩)], ["q1"], []⟩⟩
        ⟨Except.ok false, Except.ok [], "ai", "aiwc", [], 5, "now"⟩ "123" "hola"
      = ⟨⟨⟨[("123", ⟨0, 1000000, "r"⟩)], defaultHandoffConfig⟩,
          ⟨[("123", ⟨0, [], ["q1"], 0⟩)], ["q1"], []⟩⟩, [], []⟩ :=
  ⟨by decide,
   paused_turn_dropped
     ⟨⟨[("123", ⟨0, 1000000, "r"⟩)], defaultHandoffConfig⟩,
      ⟨[("123", ⟨0, [], ["q1"], 0⟩)], ["q1"], []⟩⟩
     ⟨Except.ok false, Except.ok [], "ai", "aiwc", [], 5, "now"⟩ "123" "hola" (by decide)⟩

/-! ## Survey Flow Engine: lemmas -/

namespace Survey

open JsPrim AList

theorem cleanNumber_all_digits (s : String) :
    (cleanNumber s).toList.all Char.isDigit = true := by
  rw [List.all_eq_true]
  intro c hc
  exact (List.mem_filter.mp hc).2

theorem surveyStep_inv (st : SurveyState) (ev : SurveyEvent) (hinv : SurveyInv st) :
    SurveyInv (surveyStep st ev) := by
  obtain ⟨hact, hsaved⟩ := hinv
  cases ev with
  | load fetched => exact ⟨hact, hsaved⟩
  | start p fetched now =>
    simp only [surveyStep, startSurvey, loadQuestions]
    by_cases hlen : fetched.length = 0
    · rw [if_pos hlen]
      exact ⟨hact, hsaved⟩
    · rw [if_neg hlen]
      refine ⟨?_, hsaved⟩
      intro e he
      rcases mem_alSet _ _ _ _ he with h1 | h1
      · rw [h1]
        refine ⟨rfl, ?_⟩
        show 0 < fetched.length
        omega
      · exact hact e h1
  | answer p a nowStr =>
    cases hl : alLookup p st.activeSurveys with
    | none =>
      simp only [surveyStep, processAnswer, hl]
      exact ⟨hact, hsaved⟩
    | some sv =>
      have hlen : sv.answers.length = sv.currentQuestion :=
        (hact (p, sv) (alLookup_mem p _ sv hl)).1
      have hlt : sv.currentQuestion < sv.questions.length :=
        (hact (p, sv) (alLookup_mem p _ sv hl)).2
      simp only [surveyStep, processAnswer, hl]
      by_cases hc : sv.currentQuestion + 1 < sv.questions.length
      · rw [if_pos hc]
        refine ⟨?_, hsaved⟩
        intro e he
        rcases mem_alSet _ _ _ _ he with h1 | h1
        · rw [h1]
          exact ⟨by simp [hlen], hc⟩
        · exact hact e h1
      · rw [if_neg hc]
        constructor
        · intro e he
          exact hact e (mem_alErase _ _ _ he)
        · intro rec hrec
          rcases List.mem_append.mp hrec with h1 | h1
          · exact hsaved rec h1
          · simp only [List.mem_singleton] at h1
            rw [h1]
            exact ⟨nowStr, cleanNumber p, sv.answers ++ [a], rfl,
              by simp only [List.length_append, List.length_singleton]; omega,
              cleanNumber_all_digits p⟩

theorem runSurvey_inv (events : List SurveyEvent) : SurveyInv (runSurvey events) := by
  have haux : ∀ (l : List SurveyEvent) (st : SurveyState), SurveyInv st →
      SurveyInv (l.foldl surveyStep st) := by
    intro l
    induction l with
    | nil => intro st h; exact h
    | cons e rest ih => intro st h; exact ih (surveyStep st e) (surveyStep_inv st e h)
  exact haux events initSurveyState ⟨by simp [initSurveyState], by simp [initSurveyState]⟩

end Survey

/-! ## Claim theorems: Survey Flow Engine -/

/-- C6: every persisted survey record carries exactly one answer per
snapshotted question; a live-question reload touches neither sessions nor
persisted records; `processAnswer` is entirely independent of the live list
(its reply is unchanged and its state effect commutes with any live-list
replacement); the prompt emitted after answer `i` is built from snapshotted
question `i+1`; and a freshly started session is at step 0 with an empty
answer list over the snapshot taken at start, prompting snapshotted
question 0. -/
theorem survey_snapshot_alignment (events : List Survey.SurveyEvent) :
    (∀ rec ∈ (Survey.runSurvey events).saved, rec.row.length = rec.questions.length + 2)
    ∧ (∀ (st : Survey.SurveyState) (qs : List String),
        (Survey.loadQuestions st qs).activeSurveys = st.activeSurveys
        ∧ (Survey.loadQuestions st qs).saved = st.saved)
    ∧ (∀ (st : Survey.SurveyState) (qs : List String) (p a nowStr : String),
        (Survey.processAnswer { st with questions := qs } p a nowStr).2
          = (Survey.processAnswer st p a nowStr).2
        ∧ (Survey.processAnswer { st with questions := qs } p a nowStr).1
          = { (Survey.processAnswer st p a nowStr).1 with questions := qs })
    ∧ (∀ (st : Survey.SurveyState) (p a nowStr : String) (sv : Survey.SurveySession),
        alLookup p st.activeSurveys = some sv →
        sv.currentQuestion + 1 < sv.questions.length →
        (Survey.processAnswer st p a nowStr).2.message
          = "*Pregunta " ++ toString (sv.currentQuestion + 2) ++ "/"
            ++ toString sv.questions.length ++ ":*\n"
            ++ sv.questions.getD (sv.currentQuestion + 1) "")
    ∧ (∀ (st : Survey.SurveyState) (p : String) (fetched : List String) (now : Int),
        fetched ≠ [] →
        alLookup p (Survey.startSurvey st p fetched now).1.activeSurveys
          = some ⟨0, [], fetched, now⟩
        ∧ (Survey.startSurvey st p fetched now).2
          = Survey.defaultSurveyConfig.welcomeMessage ++ "\n\n*Pregunta 1/"
            ++ toString fetched.length ++ ":*\n" ++ fetched.getD 0 "") := by
  refine ⟨?_, ?_, ?_, ?_, ?_⟩
  · intro rec hrec
    obtain ⟨ts, key, answers, hrow, hlen, _⟩ := (Survey.runSurvey_inv events).2 rec hrec
    rw [hrow]
    simp [hlen]
  · intro st qs
    exact ⟨rfl, rfl⟩
  · intro st qs p a nowStr
    cases hl : alLookup p st.activeSurveys with
    | none =>
      simp only [Survey.processAnswer, hl]
      exact ⟨by trivial, by trivial⟩
    | some sv =>
      simp only [Survey.processAnswer, hl]
      by_cases hc : sv.currentQuestion + 1 < sv.questions.length
      · rw [if_pos hc, if_pos hc]
        exact ⟨by trivial, by trivial⟩
      · rw [if_neg hc, if_neg hc]
        exact ⟨by trivial, by trivial⟩
  · intro st p a nowStr sv hl hc
    simp only [Survey.processAnswer, hl]
    rw [if_pos hc]
  · intro st p fetched now hne
    have hlen : ¬fetched.length = 0 := by simpa using hne
    simp only [Survey.startSurvey, Survey.loadQuestions]
    rw [if_neg hlen]
    exact ⟨alLookup_alSet_self _ _ _, rfl⟩

/-- Witness for C6: Scenario C's run persists a record with three answers for
three snapshotted questions, a mid-survey reload leaves the session intact,
and the step-1 prompt is built from snapshotted question 1. -/
theorem survey_snapshot_alignment_witness :
    (∀ rec ∈ (Survey.runSurvey
        [Survey.SurveyEvent.start "56911112222" ["q1", "q2", "q3"] 0,
         Survey.SurveyEvent.answer "56911112222" "a1" "t1",
         Survey.SurveyEvent.load ["changed"],
         Survey.SurveyEvent.answer "56911112222" "a2" "t2",
         Survey.SurveyEvent.answer "56911112222" "a3" "t3"]).saved,
      rec.row.length = rec.questions.length + 2)
    ∧ (Survey.processAnswer
        ⟨[("p", ⟨0, [], ["q1", "q2"], 0⟩)], ["live1", "live2", "live3"], []⟩
        "p" "ans" "now").2.message
      = "*Pregunta " ++ toString 2 ++ "/" ++ toString 2 ++ ":*\n"
        ++ ["q1", "q2"].getD 1 ""
    ∧ alLookup "p" (Survey.startSurvey ⟨[], [], []⟩ "p" ["q1", "q2"] 7).1.activeSurveys
      = some ⟨0, [], ["q1", "q2"], 7⟩ :=
  ⟨(survey_snapshot_alignment
      [Survey.SurveyEvent.start "56911112222" ["q1", "q2", "q3"] 0,
       Survey.SurveyEvent.answer "56911112222" "a1" "t1",
       Survey.SurveyEvent.load ["changed"],
       Survey.SurveyEvent.answer "56911112222" "a2" "t2",
       Survey.SurveyEvent.answer "56911112222" "a3" "t3"]).1,
   (survey_snapshot_alignment []).2.2.2.1
     ⟨[("p", ⟨0, [], ["q1", "q2"], 0⟩)], ["live1", "live2", "live3"], []⟩
     "p" "ans" "now" ⟨0, [], ["q1", "q2"], 0⟩ (by decide) (by decide),
   ((survey_snapshot_alignment []).2.2.2.2 ⟨[], [], []⟩ "p" ["q1", "q2"] 7 (by decide)).1⟩

/-- C7 (counterexample): the spec says the persisted record equals
`[key, answer1, ..., answerN]`.  The code persists
`[timestamp, key, answer1, ..., answerN]` — Scenario C's record starts with
the completion timestamp, so it does not equal `[key, a1, a2, a3]`. -/
theorem survey_row_prepends_timestamp :
    (Survey.runSurvey
        [Survey.SurveyEvent.start "56911112222" ["q1", "q2", "q3"] 0,
         Survey.SurveyEvent.answer "56911112222" "a1" "t1",
         Survey.SurveyEvent.answer "56911112222" "a2" "t2",
         Survey.SurveyEvent.answer "56911112222" "a3" "7/10/2026 12:00:00"]).saved
      = [⟨["7/10/2026 12:00:00", "56911112222", "a1", "a2", "a3"], ["q1", "q2", "q3"]⟩]
    ∧ ∀ rec ∈ (Survey.runSurvey
        [Survey.SurveyEvent.start "56911112222" ["q1", "q2", "q3"] 0,
         Survey.SurveyEvent.answer "56911112222" "a1" "t1",
         Survey.SurveyEvent.answer "56911112222" "a2" "t2",
         Survey.SurveyEvent.answer "56911112222" "a3" "7/10/2026 12:00:00"]).saved,
      rec.row ≠ ["56911112222", "a1", "a2", "a3"] := by
  decide

/-- C7 (amended): every record the survey engine persists has the form
`[timestamp, key, answer1, ..., answerN]`, where the key is the digits-only
sender number and the answers align one-to-one with the record's snapshotted
question list. -/
theorem survey_persisted_record_shape (events : List Survey.SurveyEvent)
    (rec : Survey.SavedResponse) (hrec : rec ∈ (Survey.runSurvey events).saved) :
    ∃ ts key answers, rec.row = ts :: key :: answers
      ∧ answers.length = rec.questions.length
      ∧ key.toList.all Char.isDigit = true :=
  (Survey.runSurvey_inv events).2 rec hrec

/-- Witness for the amended C7 at Scenario C's concrete run. -/
theorem survey_persisted_record_shape_witness :
    ∃ ts key answers,
      (⟨["7/10/2026 12:00:00", "56911112222", "a1", "a2", "a3"], ["q1", "q2", "q3"]⟩ :
          Survey.SavedResponse).row = ts :: key :: answers
      ∧ answers.length = (⟨["7/10/2026 12:00:00", "56911112222", "a1", "a2", "a3"],
          ["q1", "q2", "q3"]⟩ : Survey.SavedResponse).questions.length
      ∧ key.toList.all Char.isDigit = true :=
  survey_persisted_record_shape
    [Survey.SurveyEvent.start "56911112222" ["q1", "q2", "q3"] 0,
     Survey.SurveyEvent.answer "56911112222" "a1" "t1",
     Survey.SurveyEvent.answer "56911112222" "a2" "t2",
     Survey.SurveyEvent.answer "56911112222" "a3" "7/10/2026 12:00:00"]
    ⟨["7/10/2026 12:00:00", "56911112222", "a1", "a2", "a3"], ["q1", "q2", "q3"]⟩
    (by decide)
